import Mathlib

/-!
Verification of the NEAT-style evolutionary engine in `NEATNNG.py`.

The Python data structures are shallowly embedded:
* Python `dict`s become insertion-ordered association lists (`List (κ × α)`),
  with lookup finding the first matching key, insertion overwriting in place
  or appending, and deletion filtering; keys are unique in every dict the
  program builds, so these operations agree with `dict` semantics including
  iteration order (which the source observes via `enumerate`).
* `float` values become `ℚ`; the transcendental activations (sigmoid, tanh)
  are abstracted as function parameters because the source computes them with
  floating point, while all claims under study are independent of their values.
* Randomness (`random.choice`, `random.uniform`, `random.shuffle`,
  `random.random`) is made explicit as choice parameters; a theorem about a
  random operator quantifies over (or fixes) the drawn values exactly where
  the source draws them.
* Mutable state (`InnovationManager`, genome fields) becomes explicit state
  passing: each operation returns the updated genome and/or manager.
-/

set_option maxHeartbeats 1000000

/-- Association-list lookup: first entry with the given key (Python `dict.get`). -/
def dlookup {κ α : Type} [DecidableEq κ] (l : List (κ × α)) (k : κ) : Option α :=
  (l.find? (fun p => decide (p.1 = k))).map (fun p => p.2)

/-- Association-list insert: overwrite in place if the key is present
(Python `dict` assignment keeps the key's position), else append. -/
def dinsert {κ α : Type} [DecidableEq κ] (l : List (κ × α)) (k : κ) (v : α) : List (κ × α) :=
  if (l.find? (fun p => decide (p.1 = k))).isSome then
    l.map (fun p => if p.1 = k then (k, v) else p)
  else
    l ++ [(k, v)]

/-- Association-list removal of a key (Python `del d[k]` / `d.pop(k)`). -/
def dremove {κ α : Type} [DecidableEq κ] (l : List (κ × α)) (k : κ) : List (κ × α) :=
  l.filter (fun p => decide (p.1 ≠ k))

/-- A node gene: the Python tuple `(type, activation, innovation_number[, bias])`.
Input genes made by the genome constructor are 3-tuples (no bias slot), which is
modelled by `bias = none`; the source's `len(gene) > 3` tests become `bias.isSome`. -/
structure GeneInfo where
  typ : String
  activation : String
  innov : Nat
  bias : Option ℚ
deriving DecidableEq, Repr

/-- `FeedforwardGenome`'s data fields.  `genes` maps node id to gene tuple,
`connections` maps `(in_node_id, out_node_id, innovation_number)` to weight. -/
structure Genome where
  genome_id : Nat
  genes : List (Nat × GeneInfo)
  connections : List ((Nat × Nat × Nat) × ℚ)
  next_node_id : Nat
  fitness : Option ℚ
  output_nodes : List Nat
deriving DecidableEq, Repr

/-- `InnovationManager`'s state: the innovation table keyed by
`(innovation_type, gene_in_id, gene_out_id)` (the source passes `None` as
`gene_out_id` for node-gene innovations, hence `Option Nat`), plus the two
monotonic counters. -/
structure InnovationManager where
  innovations : List ((String × Nat × Option Nat) × Nat)
  next_innovation_number : Nat
  next_genome_id_counter : Nat
deriving DecidableEq, Repr

/-- `InnovationManager.__init__`. -/
def InnovationManager.init : InnovationManager :=
  { innovations := [], next_innovation_number := 1, next_genome_id_counter := 0 }

/-- `InnovationManager.get_innovation_number`: pure table lookup. -/
def get_innovation_number (m : InnovationManager) (innovation_type : String)
    (gene_in_id : Nat) (gene_out_id : Option Nat) : Option Nat :=
  dlookup m.innovations (innovation_type, gene_in_id, gene_out_id)

/-- `InnovationManager.create_innovation`: if no explicit number is supplied, take
the current counter value and bump the counter; in both cases (re)write the table
entry for the key and return the number.  Note the source never consults the
table before allocating. -/
def create_innovation (m : InnovationManager) (innovation_type : String)
    (gene_in_id : Nat) (gene_out_id : Option Nat)
    (innovation_number : Option Nat) : Nat × InnovationManager :=
  let picked : Nat × InnovationManager :=
    match innovation_number with
    | none => (m.next_innovation_number,
               { m with next_innovation_number := m.next_innovation_number + 1 })
    | some n => (n, m)
  (picked.1,
   { picked.2 with
       innovations :=
         dinsert picked.2.innovations (innovation_type, gene_in_id, gene_out_id) picked.1 })

/-- `InnovationManager.next_genome_id`: returns the current genome-id counter and
increments it. -/
def next_genome_id (m : InnovationManager) : Nat × InnovationManager :=
  (m.next_genome_id_counter,
   { m with next_genome_id_counter := m.next_genome_id_counter + 1 })

/-- `InnovationManager.increment_genome_id`. -/
def increment_genome_id (m : InnovationManager) : InnovationManager :=
  { m with next_genome_id_counter := m.next_genome_id_counter + 1 }

/-- The random draws consumed by `FeedforwardGenome.__init__`: activation and
bias choices per hidden/output node, and per loop index `i` of the initial
connection loop the chosen target node (`random.choice(list(genes.keys()))`)
and the uniform weight draw. -/
structure InitChoices where
  hiddenAct : Nat → String
  hiddenBias : Nat → ℚ
  outputBias : Nat → ℚ
  connTarget : Nat → Nat
  connWeight : Nat → ℚ

/-- The input-node creation loop of `FeedforwardGenome.__init__`. -/
def addInputNodes (m : InnovationManager) (g : Genome) : Nat → Genome × InnovationManager
  | 0 => (g, m)
  | Nat.succ k =>
    let r := create_innovation m "gene" g.next_node_id none none
    let g1 := { g with
        genes := dinsert g.genes g.next_node_id ⟨"input", "identity", r.1, none⟩,
        next_node_id := g.next_node_id + 1 }
    addInputNodes r.2 g1 k

/-- The hidden-node creation loop of `FeedforwardGenome.__init__` (`idx` counts
which hidden node is being drawn). -/
def addHiddenNodes (ch : InitChoices) : Nat → Nat → InnovationManager → Genome → Genome × InnovationManager
  | _, 0, m, g => (g, m)
  | idx, Nat.succ k, m, g =>
    let r := create_innovation m "gene" g.next_node_id none none
    let g1 := { g with
        genes := dinsert g.genes g.next_node_id
          ⟨"hidden", ch.hiddenAct idx, r.1, some (ch.hiddenBias idx)⟩,
        next_node_id := g.next_node_id + 1 }
    addHiddenNodes ch (idx + 1) k r.2 g1

/-- The output-node creation loop of `FeedforwardGenome.__init__`. -/
def addOutputNodes (ch : InitChoices) : Nat → Nat → InnovationManager → Genome → Genome × InnovationManager
  | _, 0, m, g => (g, m)
  | idx, Nat.succ k, m, g =>
    let r := create_innovation m "gene" g.next_node_id none none
    let g1 := { g with
        genes := dinsert g.genes g.next_node_id
          ⟨"output", "identity", r.1, some (ch.outputBias idx)⟩,
        output_nodes := g.output_nodes ++ [g.next_node_id],
        next_node_id := g.next_node_id + 1 }
    addOutputNodes ch (idx + 1) k r.2 g1

/-- The initial random-connection loop of `FeedforwardGenome.__init__`:
`for i in range(num_inputs + initial_hidden_nodes)`, draw `out_node`, accept
unless the source is an output node, the target is an input node, or it is a
self-loop.  The wildcard arm is unreachable in the source (`i` is always a key
and `out_node` is drawn from the keys). -/
def initConnLoop (ch : InitChoices) : Nat → Nat → InnovationManager → Genome → Genome × InnovationManager
  | _, 0, m, g => (g, m)
  | i, Nat.succ k, m, g =>
    let out_node := ch.connTarget i
    let next : Genome × InnovationManager :=
      match dlookup g.genes i, dlookup g.genes out_node with
      | some gi, some go =>
        if gi.typ ≠ "output" ∧ go.typ ≠ "input" ∧ i ≠ out_node then
          let r := create_innovation m "connection" i (some out_node) none
          ({ g with connections := dinsert g.connections (i, out_node, r.1) (ch.connWeight i) }, r.2)
        else (g, m)
      | _, _ => (g, m)
    initConnLoop ch (i + 1) k next.2 next.1

/-- `FeedforwardGenome.__init__(genome_id, num_inputs, num_outputs,
innovation_manager, initial_hidden_nodes)`. -/
def feedforwardGenomeInit (genome_id num_inputs num_outputs : Nat) (m : InnovationManager)
    (initial_hidden_nodes : Nat) (ch : InitChoices) : Genome × InnovationManager :=
  let g0 : Genome := { genome_id := genome_id, genes := [], connections := [],
                       next_node_id := 0, fitness := none, output_nodes := [] }
  let s1 := addInputNodes m g0 num_inputs
  let s2 := addHiddenNodes ch 0 initial_hidden_nodes s1.2 s1.1
  let s3 := addOutputNodes ch 0 num_outputs s2.2 s2.1
  initConnLoop ch 0 (num_inputs + initial_hidden_nodes) s3.2 s3.1

/-- `FeedforwardGenome.get_num_inputs`. -/
def get_num_inputs (g : Genome) : Nat :=
  (g.genes.filter (fun p => decide (p.2.typ = "input"))).length

/-- `FeedforwardGenome.get_num_outputs` (counts `output_nodes`, not genes). -/
def get_num_outputs (g : Genome) : Nat := g.output_nodes.length

/-- `FeedforwardGenome.get_num_hidden_nodes`. -/
def get_num_hidden_nodes (g : Genome) : Nat :=
  (g.genes.filter (fun p => decide (p.2.typ = "hidden"))).length

/-- `FeedforwardGenome.add_node`: writes the new gene at the genome's current
`next_node_id` and bumps the counter.  All in-repo callers pass an innovation
number, so the `None`-raising branch of the source is not modelled.
`biasDraw` is the `random.uniform(-1, 1)` value. -/
def add_node (g : Genome) (new_type activation : String) (innovation_number : Nat)
    (biasDraw : ℚ) : Genome :=
  let initial_bias : ℚ := if new_type ≠ "input" then biasDraw else 0
  { g with
      genes := dinsert g.genes g.next_node_id
        ⟨new_type, activation, innovation_number, some initial_bias⟩,
      next_node_id := g.next_node_id + 1 }

/-- `FeedforwardGenome.add_connection`: no-op returning `False` when the exact
key triple is already present; otherwise inserts (weight defaulting to the
uniform draw `weightDraw`) and returns `True`. -/
def add_connection (g : Genome) (in_node_id out_node_id : Nat) (weight : Option ℚ)
    (innovation_number : Nat) (weightDraw : ℚ) : Genome × Bool :=
  if (dlookup g.connections (in_node_id, out_node_id, innovation_number)).isSome then
    (g, false)
  else
    let w := weight.getD weightDraw
    ({ g with connections :=
         dinsert g.connections (in_node_id, out_node_id, innovation_number) w }, true)

/-- `FeedforwardGenome.mutate_add_node`: `pick` is the index of the connection
drawn by `random.choice`; `act`/`biasDraw` are the hidden node's draws.  The
`none` arm covers the empty-connections guard (an out-of-range `pick` cannot
occur in the source).  Note that the source bumps `next_node_id` itself *and*
then calls `add_node`, which bumps it again. -/
def mutate_add_node (g : Genome) (m : InnovationManager) (pick : Nat) (act : String)
    (biasDraw : ℚ) : Genome × InnovationManager :=
  match g.connections.get? pick with
  | none => (g, m)
  | some c =>
    let in_node := c.1.1
    let out_node := c.1.2.1
    let weight := c.2
    let g1 := { g with connections := dremove g.connections c.1 }
    let new_node_id := g1.next_node_id
    let g2 := { g1 with next_node_id := g1.next_node_id + 1 }
    let r1 := create_innovation m "gene" new_node_id none none
    let g3 := add_node g2 "hidden" act r1.1 biasDraw
    let r2 := create_innovation r1.2 "connection" in_node (some new_node_id) none
    let g4 := (add_connection g3 in_node new_node_id (some 1) r2.1 0).1
    let r3 := create_innovation r2.2 "connection" new_node_id (some out_node) none
    let g5 := (add_connection g4 new_node_id out_node (some weight) r3.1 0).1
    (g5, r3.2)

/-- `FeedforwardGenome.mutate_add_connection`: `pickIn`/`pickOut` index the two
`random.choice` draws from the candidate pools; the wildcard arm covers the
empty-pool guard. -/
def mutate_add_connection (g : Genome) (m : InnovationManager)
    (possible_in_nodes possible_out_nodes : List Nat) (pickIn pickOut : Nat)
    (weightDraw : ℚ) : Genome × InnovationManager :=
  match possible_in_nodes.get? pickIn, possible_out_nodes.get? pickOut with
  | some in_node, some out_node =>
    let connection_exists := g.connections.any
      (fun p => decide (p.1.1 = in_node) && decide (p.1.2.1 = out_node))
    if in_node ≠ out_node ∧ connection_exists = false ∧ in_node < out_node then
      let r := create_innovation m "connection" in_node (some out_node) none
      ((add_connection g in_node out_node none r.1 weightDraw).1, r.2)
    else (g, m)
  | _, _ => (g, m)

/-- `FeedforwardGenome.mutate_eliminate_node`: `shuffled` is the shuffled list
of hidden node ids; the source removes the first one together with every
connection touching it and returns. -/
def mutate_eliminate_node (g : Genome) (shuffled : List Nat) : Genome :=
  match shuffled with
  | [] => g
  | node_id :: _ =>
    { g with
        connections := g.connections.filter
          (fun p => decide (p.1.2.1 ≠ node_id) && decide (p.1.1 ≠ node_id)),
        genes := dremove g.genes node_id }

/-- `FeedforwardGenome.prune_orphan_nodes`: first collect every node with no
incident connection in either direction, then delete each from the gene map
(and filter its connections, vacuous for a true orphan). -/
def prune_orphan_nodes (g : Genome) : Genome :=
  let orphan_nodes := (g.genes.map Prod.fst).filter (fun node =>
    !(g.connections.any (fun p => decide (p.1.1 = node))) &&
    !(g.connections.any (fun p => decide (p.1.2.1 = node))))
  orphan_nodes.foldl (fun g2 orphan =>
    { g2 with
        genes := dremove g2.genes orphan,
        connections := g2.connections.filter
          (fun p => decide (p.1.1 ≠ orphan) && decide (p.1.2.1 ≠ orphan)) }) g

/-- `FeedforwardGenome.mutate_eliminate_connection`: iterates the shuffled
snapshot of `connections.items()`; tentatively removes a connection, reverts if
that would leave a hidden endpoint with no remaining outgoing (for the source
side) or incoming (for the target side) connection, otherwise runs
`prune_orphan_nodes` and stops. -/
def mutate_eliminate_connection (g : Genome) : List ((Nat × Nat × Nat) × ℚ) → Genome
  | [] => g
  | c :: rest =>
    match dlookup g.genes c.1.1, dlookup g.genes c.1.2.1 with
    | some gin, some gout =>
      let in_node := c.1.1
      let out_node := c.1.2.1
      let g1 := { g with connections := dremove g.connections c.1 }
      let in_has_other_outputs := g1.connections.any (fun p =>
        (decide (p.1.1 ≠ in_node) || decide (p.1.2.1 ≠ out_node)) && decide (p.1.1 = in_node))
      let out_has_other_inputs := g1.connections.any (fun p =>
        (decide (p.1.1 ≠ in_node) || decide (p.1.2.1 ≠ out_node)) && decide (p.1.2.1 = out_node))
      let in_is_hidden := gin.typ = "hidden"
      let out_is_hidden := gout.typ = "hidden"
      if (in_is_hidden ∧ in_has_other_outputs = false) ∨
         (out_is_hidden ∧ out_has_other_inputs = false) then
        mutate_eliminate_connection
          { g with connections := dinsert g1.connections c.1 c.2 } rest
      else
        prune_orphan_nodes g1
    | _, _ => mutate_eliminate_connection g rest

/-- `FeedforwardGenome.prune_disconnected_inputs`: for every input node that is
not a source of any connection (per the snapshot taken at entry), attach one
edge to a chosen hidden-or-output node, minting a connection innovation.
`pick` indexes the `random.choice(targets)` draw per input node, `weightDraw`
its uniform weight; the `none` arm covers the empty-targets `continue`. -/
def prune_disconnected_inputs (g : Genome) (m : InnovationManager)
    (pick : Nat → Nat) (weightDraw : Nat → ℚ) : Genome × InnovationManager :=
  let input_nodes := (g.genes.filter (fun p => decide (p.2.typ = "input"))).map Prod.fst
  let connected_sources := g.connections.map (fun p => p.1.1)
  input_nodes.foldl (fun s input_node =>
    if input_node ∈ connected_sources then s
    else
      let targets := ((s.1.genes.filter (fun p =>
        decide (p.2.typ = "hidden") || decide (p.2.typ = "output"))).map Prod.fst)
      match targets.get? (pick input_node) with
      | none => s
      | some target =>
        let r := create_innovation s.2 "connection" input_node (some target) none
        ((add_connection s.1 input_node target none r.1 (weightDraw input_node)).1, r.2))
    (g, m)

/-- `FeedforwardGenome.copy`: runs the full constructor (with zero hidden
nodes) against the shared manager, then overwrites every data field with a
copy of the original's. -/
def copyGenome (g : Genome) (m : InnovationManager) (ch : InitChoices) :
    Genome × InnovationManager :=
  let r := feedforwardGenomeInit g.genome_id (get_num_inputs g) (get_num_outputs g) m 0 ch
  ({ r.1 with genes := g.genes, connections := g.connections,
              next_node_id := g.next_node_id, fitness := g.fitness,
              output_nodes := g.output_nodes }, r.2)

/-- `Population.create_initial_genome_population`: draws a genome id via
`next_genome_id`, constructs the genome, then calls `increment_genome_id`. -/
def create_initial_genome_population (m : InnovationManager)
    (num_inputs num_outputs initial_hidden_nodes : Nat) (ch : InitChoices) :
    Genome × InnovationManager :=
  let r0 := next_genome_id m
  let r1 := feedforwardGenomeInit r0.1 num_inputs num_outputs r0.2 initial_hidden_nodes ch
  (r1.1, increment_genome_id r1.2)

/-- Stable insertion of one element into a sorted list (kept structurally
recursive so that terms evaluate by kernel reduction). -/
def insertLe {α : Type} (le : α → α → Bool) (a : α) : List α → List α
  | [] => [a]
  | b :: t => if le a b then a :: b :: t else b :: insertLe le a t

/-- Python `sorted(l, key=...)` as a stable insertion sort: ascending with
respect to `le`, equal elements keeping their original relative order. -/
def insertionSort {α : Type} (le : α → α → Bool) (l : List α) : List α :=
  l.foldr (insertLe le) []

/-- Python `max(s) if s else 0` over a list of naturals. -/
def maxNatList (l : List Nat) : Nat := l.foldl max 0

/-- One iteration of the node-gene excess/disjoint loop of
`Species.calculate_compatibility_distance` (innovation `n`, accumulator
`(excess, disjoint)`). -/
def geneEDStep (s1 s2 : List Nat) (m1 m2 : Nat) (acc : Nat × Nat) (n : Nat) : Nat × Nat :=
  if n ∈ s1 ∧ n ∈ s2 then acc
  else if n ∈ s1 ∨ n ∈ s2 then
    if n > min m1 m2 then (acc.1 + 1, acc.2) else (acc.1, acc.2 + 1)
  else acc

/-- Python `abs` on rationals, written so that it evaluates by kernel
reduction (it agrees with `|q|`). -/
def ratAbs (q : ℚ) : ℚ := if q < 0 then -q else q

/-- One iteration of the connection loop of
`Species.calculate_compatibility_distance`; accumulator is
`(excess, disjoint, total_weight_diff, matching_connections)`. -/
def connEDStep (cs1 cs2 : List ((Nat × Nat × Nat) × ℚ)) (m1 m2 : Nat)
    (acc : Nat × Nat × ℚ × Nat) (n : Nat) : Nat × Nat × ℚ × Nat :=
  match cs1.find? (fun p => decide (p.1.2.2 = n)), cs2.find? (fun p => decide (p.1.2.2 = n)) with
  | some q1, some q2 => (acc.1, acc.2.1, acc.2.2.1 + ratAbs (q1.2 - q2.2), acc.2.2.2 + 1)
  | some _, none =>
    if n > min m1 m2 then (acc.1 + 1, acc.2.1, acc.2.2.1, acc.2.2.2)
    else (acc.1, acc.2.1 + 1, acc.2.2.1, acc.2.2.2)
  | none, some _ =>
    if n > min m1 m2 then (acc.1 + 1, acc.2.1, acc.2.2.1, acc.2.2.2)
    else (acc.1, acc.2.1 + 1, acc.2.2.1, acc.2.2.2)
  | none, none => acc

/-- The `range(1, max+1)` iteration list. -/
def oneToN (n : Nat) : List Nat := (List.range n).map (fun k => k + 1)

/-- The `(excess, disjoint, total_weight_diff)` accumulated by both loops of
`Species.calculate_compatibility_distance`, and the floored `N`. -/
def compatibilityParts (rep gnm : Genome) : Nat × Nat × ℚ × ℚ :=
  let innovs1g := rep.genes.map (fun p => p.2.innov)
  let innovs2g := gnm.genes.map (fun p => p.2.innov)
  let max1g := maxNatList innovs1g
  let max2g := maxNatList innovs2g
  let ed := (oneToN (max max1g max2g)).foldl (geneEDStep innovs1g innovs2g max1g max2g) (0, 0)
  let innovs1c := rep.connections.map (fun p => p.1.2.2)
  let innovs2c := gnm.connections.map (fun p => p.1.2.2)
  let max1c := maxNatList innovs1c
  let max2c := maxNatList innovs2c
  let full := (oneToN (max max1c max2c)).foldl
    (connEDStep rep.connections gnm.connections max1c max2c) (ed.1, ed.2, 0, 0)
  let N0 := max (max rep.genes.length gnm.genes.length)
               (max rep.connections.length gnm.connections.length)
  let N : ℚ := if N0 = 0 then 1 else (N0 : ℚ)
  (full.1, full.2.1, full.2.2.1, N)

/-- `Species.calculate_compatibility_distance`: the local variable
`weight_diff` is initialised to 0 and never updated — the loop accumulates
into the separate `total_weight_diff`, which the final formula does not use —
so the returned distance is `c1*excess/N + c2*disjoint/N + c3*0/N`. -/
def calculate_compatibility_distance (rep gnm : Genome) (c1 c2 c3 : ℚ) : ℚ :=
  let weight_diff : ℚ := 0
  let parts := compatibilityParts rep gnm
  let N := parts.2.2.2
  (c1 * parts.1 / N) + (c2 * parts.2.1 / N) + (c3 * weight_diff / N)

/-- Modelled from the spec: the distance formula
`c1*excess/N + c2*disjoint/N + c3*weight_diff/N` where `weight_diff` is the
accumulated sum of `|weightA - weightB|` over matching connection pairs (the
value the source stores in `total_weight_diff`). -/
def compatibility_distance_spec (rep gnm : Genome) (c1 c2 c3 : ℚ) : ℚ :=
  let parts := compatibilityParts rep gnm
  let N := parts.2.2.2
  (c1 * parts.1 / N) + (c2 * parts.2.1 / N) + (c3 * parts.2.2.1 / N)

/-- The two error conditions `FeedforwardGenome.activate` can raise:
`ValueError` for an input-arity mismatch, `IndexError` when an input node's
enumeration index falls outside the supplied input list. -/
inductive PyError
  | valueError
  | indexError
deriving DecidableEq, Repr

/-- The `if/elif` activation chain of `FeedforwardGenome.activate`; an
unrecognised activation name assigns no value (`none`).  `sigmoid`/`tanhF`
abstract the floating-point transcendentals. -/
def actValue (sigmoid tanhF : ℚ → ℚ) (activation : String) (x : ℚ) : Option ℚ :=
  if activation = "relu" then some (max 0 x)
  else if activation = "sigmoid" then some (sigmoid x)
  else if activation = "tanh" then some (tanhF x)
  else if activation = "identity" then some x
  else none

/-- `{node_id: index for index, (node_id, _) in enumerate(genes.items()) if input}`:
note the index counts positions among *all* genes, not just inputs. -/
def inputIndexPairs (g : Genome) : List (Nat × Nat) :=
  g.genes.enum.filterMap (fun q =>
    if q.2.2.typ = "input" then some (q.2.1, q.1) else none)

/-- Assigning `node_values[node_id] = inputs[input_index]` for every input
node; `inputs[idx]` out of range raises `IndexError`. -/
def setInputValues (inputs : List ℚ) (acc : List (Nat × ℚ)) :
    List (Nat × Nat) → Except PyError (List (Nat × ℚ))
  | [] => Except.ok acc
  | (nid, idx) :: rest =>
    match inputs.get? idx with
    | some v => setInputValues inputs (dinsert acc nid v) rest
    | none => Except.error PyError.indexError

/-- The body of `activate`'s main loop for one (non-input) node: sum
`value(source) * weight` over connections into the node whose source already
has a value, add the bias (0 when the gene tuple has no bias slot), apply the
activation. -/
def activateNodeStep (sigmoid tanhF : ℚ → ℚ) (g : Genome) (nv : List (Nat × ℚ))
    (node_id : Nat) : List (Nat × ℚ) :=
  match dlookup g.genes node_id with
  | none => nv
  | some gi =>
    if gi.typ = "input" then nv
    else
      let incoming_sum := g.connections.foldl (fun s p =>
        if p.1.2.1 = node_id then
          match dlookup nv p.1.1 with
          | some v => s + v * p.2
          | none => s
        else s) 0
      let withBias := incoming_sum + gi.bias.getD 0
      match actValue sigmoid tanhF gi.activation withBias with
      | some v => dinsert nv node_id v
      | none => nv

/-- `FeedforwardGenome.activate`: arity check, input assignment, evaluation of
nodes in ascending node-id order, then the output values in `output_nodes`
order with default 0 for ids that received no value. -/
def activate (sigmoid tanhF : ℚ → ℚ) (g : Genome) (inputs : List ℚ) :
    Except PyError (List ℚ) :=
  if inputs.length ≠ get_num_inputs g then Except.error PyError.valueError
  else
    match setInputValues inputs [] (inputIndexPairs g) with
    | Except.error e => Except.error e
    | Except.ok node_values0 =>
      let sorted_nodes := insertionSort (fun a b => decide (a ≤ b)) (g.genes.map Prod.fst)
      let node_values := sorted_nodes.foldl (activateNodeStep sigmoid tanhF g) node_values0
      Except.ok (g.output_nodes.map (fun nid => (dlookup node_values nid).getD 0))

/-- `parent1 if parent1.fitness > parent2.fitness else parent2` as a Boolean
("the fitter parent is parent1").  Comparing an undefined (`None`) fitness
raises in Python; crossover is only invoked on evaluated parents, so the
wildcard arm is unreachable there. -/
def pyFitterIsP1 (f1 f2 : Option ℚ) : Bool :=
  match f1, f2 with
  | some a, some b => decide (a > b)
  | _, _ => false

/-- `next(... for node_id, gene_info in genes.items() if gene_info[2] == innovation)`. -/
def findGeneByInnov (genes : List (Nat × GeneInfo)) (innovation : Nat) :
    Option (Nat × GeneInfo) :=
  genes.find? (fun p => decide (p.2.innov = innovation))

/-- `next(... for (in,out,innov), weight in connections.items() if innov == innovation)`. -/
def findConnByInnov (conns : List ((Nat × Nat × Nat) × ℚ)) (innovation : Nat) :
    Option ((Nat × Nat × Nat) × ℚ) :=
  conns.find? (fun p => decide (p.1.2.2 = innovation))

/-- `sorted(list(setA | setB))`: duplicate-free ascending union. -/
def sortedInnovUnion (l1 l2 : List Nat) : List Nat :=
  insertionSort (fun a b => decide (a ≤ b)) ((l1 ++ l2).dedup)

/-- One iteration of `crossover`'s node-gene loop.  When both parents carry the
innovation the inherited tuple is rebuilt as a 4-tuple with bias defaulted to
0; when only one parent carries it, the tuple is copied verbatim and kept only
if that parent is the fitter one. -/
def geneStep (genes1 genes2 : List (Nat × GeneInfo)) (fitter1 : Bool) (coin : Nat → Bool)
    (child : List (Nat × GeneInfo)) (innovation : Nat) : List (Nat × GeneInfo) :=
  match findGeneByInnov genes1 innovation, findGeneByInnov genes2 innovation with
  | some p1, some p2 =>
    if coin innovation then
      dinsert child p1.1 ⟨p1.2.typ, p1.2.activation, p1.2.innov, some (p1.2.bias.getD 0)⟩
    else
      dinsert child p2.1 ⟨p2.2.typ, p2.2.activation, p2.2.innov, some (p2.2.bias.getD 0)⟩
  | some p1, none => if fitter1 then dinsert child p1.1 p1.2 else child
  | none, some p2 => if !fitter1 then dinsert child p2.1 p2.2 else child
  | none, none => child

/-- One iteration of `crossover`'s connection loop. -/
def connStep (cs1 cs2 : List ((Nat × Nat × Nat) × ℚ)) (fitter1 : Bool) (coin : Nat → Bool)
    (child : List ((Nat × Nat × Nat) × ℚ)) (innovation : Nat) :
    List ((Nat × Nat × Nat) × ℚ) :=
  match findConnByInnov cs1 innovation, findConnByInnov cs2 innovation with
  | some q1, some q2 =>
    let chosen := if coin innovation then q1 else q2
    dinsert child (chosen.1.1, chosen.1.2.1, innovation) chosen.2
  | some q1, none => if fitter1 then dinsert child q1.1 q1.2 else child
  | none, some q2 => if !fitter1 then dinsert child q2.1 q2.2 else child
  | none, none => child

/-- Python `max(keys)` over a gene dict (0 on the empty dict, which the source
never queries thanks to its `if child.genes` guard). -/
def maxKeyNat (l : List (Nat × GeneInfo)) : Nat := maxNatList (l.map Prod.fst)

/-- The random draws consumed by `crossover`: the constructor draws for the
scaffold child (built with the default 8 hidden nodes and then overwritten),
and one coin per innovation number for the matching-gene /
matching-connection choices. -/
structure CrossChoices where
  init : InitChoices
  geneCoin : Nat → Bool
  connCoin : Nat → Bool

/-- The free function `crossover(parent1, parent2, innovation_manager)`. -/
def crossover (parent1 parent2 : Genome) (m : InnovationManager) (ch : CrossChoices) :
    Genome × InnovationManager :=
  let fitter1 := pyFitterIsP1 parent1.fitness parent2.fitness
  let r0 := next_genome_id m
  let num_inputs := (parent1.genes.filter (fun p => decide (p.2.typ = "input"))).length
  let num_outputs := (parent1.genes.filter (fun p => decide (p.2.typ = "output"))).length
  let rc := feedforwardGenomeInit r0.1 num_inputs num_outputs r0.2 8 ch.init
  let m3 := increment_genome_id rc.2
  let geneInnovs := sortedInnovUnion (parent1.genes.map (fun p => p.2.innov))
    (parent2.genes.map (fun p => p.2.innov))
  let childGenes := geneInnovs.foldl
    (geneStep parent1.genes parent2.genes fitter1 ch.geneCoin) []
  let connInnovs := sortedInnovUnion (parent1.connections.map (fun p => p.1.2.2))
    (parent2.connections.map (fun p => p.1.2.2))
  let childConns := connInnovs.foldl
    (connStep parent1.connections parent2.connections fitter1 ch.connCoin) []
  let nni := if childGenes.isEmpty then 0 else maxKeyNat childGenes + 1
  ({ rc.1 with genes := childGenes, connections := childConns, next_node_id := nni }, m3)

/-- A `Species` as `StagnationManager.update` observes it: an identity (Python
uses object identity as the dict key), its `best_fitness`, the
`historical_best_fitness` attribute (always set by `Species.__init__`), and
its members' raw fitness values. -/
structure SpeciesS where
  sid : Nat
  best_fitness : ℚ
  historical_best_fitness : ℚ
  members : List ℚ
deriving DecidableEq, Repr

/-- `StagnationManager`'s persistent state. -/
structure StagnationState where
  max_stagnation : Int
  elitism : Nat
  species_last_improved : List (Nat × Int)
deriving DecidableEq, Repr

/-- One iteration of `StagnationManager.update`'s main loop; the accumulator
is `(stagnation_status, species_last_improved, results)`. -/
def stagnationStep (st : StagnationState) (generation : Int)
    (acc : List (Nat × Bool) × List (Nat × Int) × List (SpeciesS × Bool))
    (spec : SpeciesS) : List (Nat × Bool) × List (Nat × Int) × List (SpeciesS × Bool) :=
  let status := acc.1
  let li := acc.2.1
  let results := acc.2.2
  match dlookup li spec.sid with
  | none =>
    let spec2 := { spec with
      historical_best_fitness := max spec.historical_best_fitness spec.best_fitness }
    (dinsert status spec.sid false, dinsert li spec.sid generation,
     results ++ [(spec2, false)])
  | some last_improved =>
    if spec.best_fitness > spec.historical_best_fitness then
      let spec2 := { spec with
        historical_best_fitness := max spec.historical_best_fitness spec.best_fitness }
      (dinsert status spec.sid false, dinsert li spec.sid generation,
       results ++ [(spec2, false)])
    else if generation - last_improved ≥ st.max_stagnation then
      (dinsert status spec.sid true, li, results ++ [(spec, true)])
    else
      (dinsert status spec.sid false, li, results ++ [(spec, false)])

/-- `max(g.fitness for g in species.members) if members else -inf`. -/
def bestMemberFitness (spec : SpeciesS) : WithBot ℚ := spec.members.maximum

/-- The ids of the species forced non-stagnant by the elitism override: the
first `min(elitism, len(results))` after the stable descending sort of
`results` by best member fitness. -/
def stagForcedSids (st : StagnationState) (specs : List SpeciesS) (generation : Int) :
    List Nat :=
  let pass := specs.foldl (stagnationStep st generation) ([], st.species_last_improved, [])
  let sortedResults := insertionSort
    (fun a b => decide (bestMemberFitness b.1 ≤ bestMemberFitness a.1)) pass.2.2
  (sortedResults.take (min st.elitism sortedResults.length)).map (fun q => q.1.sid)

/-- `StagnationManager.update`: `specs` is the manager's `sorted_species` list
after the reinsertion pass (its order only matters for tie-breaking in the
elitism sort).  Returns the `stagnation_status` dict and the updated manager
state. -/
def stagnationUpdate (st : StagnationState) (specs : List SpeciesS) (generation : Int) :
    List (Nat × Bool) × StagnationState :=
  let pass := specs.foldl (stagnationStep st generation) ([], st.species_last_improved, [])
  let forced := stagForcedSids st specs generation
  let finalStatus := forced.foldl (fun s sid => dinsert s sid false) pass.1
  (finalStatus, { st with species_last_improved := pass.2.1 })

/-- The hidden-node id list computed at the top of `mutate_eliminate_node`
(the list that the source shuffles). -/
def hiddenNodeIds (g : Genome) : List Nat :=
  (g.genes.filter (fun p => decide (p.2.typ = "hidden"))).map Prod.fst

/-- Fixture: one input node 0, one output node 1, the single connection 0→1
with weight 5; innovation numbers 1..3 already issued. -/
def fixtureSplitGenome : Genome :=
  { genome_id := 0,
    genes := [(0, ⟨"input", "identity", 1, none⟩), (1, ⟨"output", "identity", 2, some 0⟩)],
    connections := [((0, 1, 3), 5)],
    next_node_id := 2, fitness := none, output_nodes := [1] }

/-- Fixture: the manager state in which `fixtureSplitGenome` was built. -/
def fixtureSplitManager : InnovationManager := ⟨[], 4, 0⟩

/-- Fixture: input 0 → hidden 1 → hidden 2 → output 3 plus the direct edge
0→3 that keeps the input attached when node 1 is eliminated. -/
def fixtureChainGenome : Genome :=
  { genome_id := 1,
    genes := [(0, ⟨"input", "identity", 1, none⟩), (1, ⟨"hidden", "relu", 2, some 0⟩),
              (2, ⟨"hidden", "relu", 3, some 0⟩), (3, ⟨"output", "identity", 4, some 0⟩)],
    connections := [((0, 1, 5), 1), ((1, 2, 6), 1), ((2, 3, 7), 1), ((0, 3, 8), 1)],
    next_node_id := 4, fitness := none, output_nodes := [3] }

/-- Fixture: the manager state in which `fixtureChainGenome` was built. -/
def fixtureChainManager : InnovationManager := ⟨[], 9, 0⟩

/-- Fixture: the genome after `mutate_eliminate_node` removed hidden node 1 of
`fixtureChainGenome` and both pruning restorers ran (with any choice values —
none of them fire on this genome). -/
def fixtureAfterEliminate : Genome :=
  (prune_disconnected_inputs
    (prune_orphan_nodes (mutate_eliminate_node fixtureChainGenome [1, 2]))
    fixtureChainManager (fun _ => 0) (fun _ => 0)).1

/-- Fixture: two structurally identical genomes whose single matching
connection (innovation 3) carries weight 1 in one and weight 0 in the other. -/
def fixtureDistA : Genome :=
  { genome_id := 0,
    genes := [(0, ⟨"input", "identity", 1, none⟩), (1, ⟨"output", "identity", 2, some 0⟩)],
    connections := [((0, 1, 3), 1)],
    next_node_id := 2, fitness := some 1, output_nodes := [1] }

/-- Fixture: see `fixtureDistA`. -/
def fixtureDistB : Genome :=
  { genome_id := 1,
    genes := [(0, ⟨"input", "identity", 1, none⟩), (1, ⟨"output", "identity", 2, some 0⟩)],
    connections := [((0, 1, 3), 0)],
    next_node_id := 2, fitness := some 0, output_nodes := [1] }

/-- Fixture: a genome whose output node 1 (and input node 0) has no incident
connection at all, so `prune_orphan_nodes` deletes both genes while leaving
`output_nodes = [1]` in place. -/
def fixtureOrphanGenome : Genome :=
  { genome_id := 2,
    genes := [(0, ⟨"input", "identity", 1, none⟩), (1, ⟨"output", "identity", 2, some 0⟩)],
    connections := [],
    next_node_id := 2, fitness := none, output_nodes := [1] }

/-- Constant constructor choices used where the drawn values are irrelevant. -/
def constChoices : InitChoices :=
  ⟨fun _ => "relu", fun _ => 0, fun _ => 0, fun _ => 0, fun _ => 0⟩

/-- Fixture: crossover parent with fitness 2; shares innovations 1 (node 0),
2 (node 1) and connection innovation 3 with `crossParentB`, and privately owns
hidden node 2 with innovation 5. -/
def crossParentA : Genome :=
  { genome_id := 0,
    genes := [(0, ⟨"input", "identity", 1, none⟩), (1, ⟨"output", "identity", 2, some 0⟩),
              (2, ⟨"hidden", "relu", 5, some 0⟩)],
    connections := [((0, 1, 3), 7)],
    next_node_id := 3, fitness := some 2, output_nodes := [1] }

/-- Fixture: crossover parent with fitness 1; privately owns hidden node 3
with innovation 6. -/
def crossParentB : Genome :=
  { genome_id := 1,
    genes := [(0, ⟨"input", "identity", 1, none⟩), (1, ⟨"output", "identity", 2, some 0⟩),
              (3, ⟨"hidden", "tanh", 6, some 0⟩)],
    connections := [((0, 1, 3), 9)],
    next_node_id := 4, fitness := some 1, output_nodes := [1] }

/-- Fixture: an independently constructed crossover parent with fitness 3:
its innovation numbers 7, 8, 9 are disjoint from `crossParentA`'s, as happens
for any two generation-0 genomes because the manager never reuses numbers. -/
def crossParentC : Genome :=
  { genome_id := 2,
    genes := [(0, ⟨"input", "identity", 7, none⟩), (1, ⟨"output", "identity", 8, some 0⟩)],
    connections := [((0, 1, 9), 2)],
    next_node_id := 2, fitness := some 3, output_nodes := [1] }

/-- Fixture: crossover draws taking parent1 on every coin flip. -/
def crossChW : CrossChoices := ⟨constChoices, fun _ => true, fun _ => true⟩

/-- The gene that `crossover`'s node-gene rule assigns to one innovation
number: drawn by coin from a random parent when both carry it (rebuilt with a
defaulted bias slot, as in the source), kept only from the fitter parent when
unique, dropped otherwise. -/
def inheritedGene (genes1 genes2 : List (Nat × GeneInfo)) (fitter1 : Bool)
    (coin : Nat → Bool) (innovation : Nat) : Option (Nat × GeneInfo) :=
  match findGeneByInnov genes1 innovation, findGeneByInnov genes2 innovation with
  | some p1, some p2 =>
    if coin innovation then
      some (p1.1, ⟨p1.2.typ, p1.2.activation, p1.2.innov, some (p1.2.bias.getD 0)⟩)
    else
      some (p2.1, ⟨p2.2.typ, p2.2.activation, p2.2.innov, some (p2.2.bias.getD 0)⟩)
  | some p1, none => if fitter1 then some p1 else none
  | none, some p2 => if !fitter1 then some p2 else none
  | none, none => none

/-- The connection entry that `crossover`'s connection rule assigns to one
innovation number. -/
def inheritedConn (cs1 cs2 : List ((Nat × Nat × Nat) × ℚ)) (fitter1 : Bool)
    (coin : Nat → Bool) (innovation : Nat) : Option ((Nat × Nat × Nat) × ℚ) :=
  match findConnByInnov cs1 innovation, findConnByInnov cs2 innovation with
  | some q1, some q2 =>
    let chosen := if coin innovation then q1 else q2
    some ((chosen.1.1, chosen.1.2.1, innovation), chosen.2)
  | some q1, none => if fitter1 then some q1 else none
  | none, some q2 => if !fitter1 then some q2 else none
  | none, none => none

/-- Generic dict-building fold step: insert the entry a rule assigns to the
index, if any. -/
def dstep {κ α : Type} [DecidableEq κ] (f : Nat → Option (κ × α))
    (child : List (κ × α)) (i : Nat) : List (κ × α) :=
  match f i with
  | some q => dinsert child q.1 q.2
  | none => child

/-- The raw stagnation flag `StagnationManager.update` computes for a species
before the elitism override, as a function of the manager state at entry
(valid because each species is processed once per call): a species not yet in
`species_last_improved` or strictly improving on its historical best is not
stagnant; otherwise it is stagnant iff
`generation - last_improved >= max_stagnation`. -/
def rawStagFlag (st : StagnationState) (generation : Int) (spec : SpeciesS) : Bool :=
  match dlookup st.species_last_improved spec.sid with
  | none => false
  | some last_improved =>
    if spec.best_fitness > spec.historical_best_fitness then false
    else decide (generation - last_improved ≥ st.max_stagnation)

/-- Fixture: a stagnation manager with `max_stagnation = 3`, `elitism = 1`,
already tracking species 10 and 11 since generation 0. -/
def stagStateW : StagnationState := ⟨3, 1, [(10, 0), (11, 0)]⟩

/-- Fixture: species 10 — flat at its historical best 5, but the best member
(raw fitness 5) of the population, so rescued by elitism. -/
def stagSpecA : SpeciesS := ⟨10, 5, 5, [5]⟩

/-- Fixture: species 11 — below its historical best and unimproved for 5
generations. -/
def stagSpecB : SpeciesS := ⟨11, 2, 3, [2]⟩

/-- Fixture: species 12 — never seen by the manager before. -/
def stagSpecC : SpeciesS := ⟨12, 1, 1, [1]⟩

/-! ## Theorems -/

/-- C1: refuted by the code.  The claim states that two `create_innovation`
calls with the identical `(kind, in, out)` key and no explicit number return
the same number, and that the counter advances only on first use of a key.  In
the source the lookup table is never consulted before allocating: starting
from a fresh manager, two calls with the identical key `("connection", 0, 1)`
return 1 and then 2, and the global counter ends at 3 — it advanced on the
second (repeated) call as well. -/
theorem C1_create_innovation_never_reuses :
    (create_innovation InnovationManager.init "connection" 0 (some 1) none).1 = 1 ∧
    (create_innovation (create_innovation InnovationManager.init "connection" 0 (some 1) none).2
      "connection" 0 (some 1) none).1 = 2 ∧
    (create_innovation (create_innovation InnovationManager.init "connection" 0 (some 1) none).2
      "connection" 0 (some 1) none).2.next_innovation_number = 3 := by
  decide

/-- C2: refuted by the code, in both conjuncts.  (a) Splitting the only
connection 0→1 of `fixtureSplitGenome` inserts the connection `(2, 1)`, whose
source id 2 exceeds its target id 1, so not every connection satisfies
`source_id < target_id` after a mutation.  (b) On `fixtureChainGenome` (whose
hidden nodes are exactly `[1, 2]`), eliminating hidden node 1 and then running
both pruning restorers leaves hidden node 2 in the genome with no incoming
connection at all. -/
theorem C2_mutation_invariants_fail :
    (dlookup (mutate_add_node fixtureSplitGenome fixtureSplitManager 0 "relu" 0).1.connections
      (2, 1, 6) = some 5) ∧
    ((mutate_add_node fixtureSplitGenome fixtureSplitManager 0 "relu" 0).1.connections.all
      (fun p => decide (p.1.1 < p.1.2.1)) = false) ∧
    hiddenNodeIds fixtureChainGenome = [1, 2] ∧
    dlookup fixtureAfterEliminate.genes 2 = some ⟨"hidden", "relu", 3, some 0⟩ ∧
    (fixtureAfterEliminate.connections.all (fun p => decide (p.1.2.1 ≠ 2)) = true) := by
  decide

/-- C3: refuted by the code.  On two genomes that differ only in the weight of
their single matching connection (1 versus 0), the loops do accumulate the
weight difference 1 (third component of `compatibilityParts`), but the
returned distance is 0 with `c1 = c2 = c3 = 1` because the formula divides the
never-updated local `weight_diff` instead of the accumulated total; the
formula the claim states (embedded as `compatibility_distance_spec`) yields
`1/2` on the same pair. -/
theorem C3_weight_diff_dropped_from_distance :
    compatibilityParts fixtureDistA fixtureDistB = (0, 0, 1, 2) ∧
    calculate_compatibility_distance fixtureDistA fixtureDistB 1 1 1 = 0 ∧
    compatibility_distance_spec fixtureDistA fixtureDistB 1 1 1 = 1 / 2 := by
  refine ⟨?_, ?_, ?_⟩ <;>
    norm_num [compatibilityParts, calculate_compatibility_distance,
      compatibility_distance_spec, fixtureDistA, fixtureDistB, maxNatList, oneToN,
      geneEDStep, connEDStep, ratAbs, List.range_succ, List.foldl, List.find?]

/-- C6: refuted by the code.  Splitting the connection (0→1, weight 5) of
`fixtureSplitGenome` does remove the original and insert exactly the two
connections (0→2, weight 1) and (2→1, weight 5) — but node 2 is *not* the
freshly created hidden node: the double increment of `next_node_id` puts the
new hidden gene at id 3, and id 2 has no gene at all, so the replacement
connections do not attach to the created node. -/
theorem C6_add_node_connections_miss_new_node :
    ((mutate_add_node fixtureSplitGenome fixtureSplitManager 0 "relu" 0).1.connections
      = [((0, 2, 5), 1), ((2, 1, 6), 5)]) ∧
    dlookup (mutate_add_node fixtureSplitGenome fixtureSplitManager 0 "relu" 0).1.genes 2
      = none ∧
    dlookup (mutate_add_node fixtureSplitGenome fixtureSplitManager 0 "relu" 0).1.genes 3
      = some ⟨"hidden", "relu", 4, some 0⟩ := by
  decide

theorem create_innovation_genome_counter (m : InnovationManager) (t : String)
    (i : Nat) (o x : Option Nat) :
    (create_innovation m t i o x).2.next_genome_id_counter = m.next_genome_id_counter := by
  cases x <;> rfl

theorem create_innovation_none_counter (m : InnovationManager) (t : String)
    (i : Nat) (o : Option Nat) :
    (create_innovation m t i o none).2.next_innovation_number = m.next_innovation_number + 1 :=
  rfl

theorem addInputNodes_genome_counter (n : Nat) : ∀ m g,
    ((addInputNodes m g n).2).next_genome_id_counter = m.next_genome_id_counter := by
  induction n with
  | zero => intro m g; rfl
  | succ k ih =>
    intro m g
    simp only [addInputNodes]
    rw [ih, create_innovation_genome_counter]

theorem addHiddenNodes_genome_counter (ch : InitChoices) (n : Nat) : ∀ idx m g,
    ((addHiddenNodes ch idx n m g).2).next_genome_id_counter = m.next_genome_id_counter := by
  induction n with
  | zero => intro idx m g; rfl
  | succ k ih =>
    intro idx m g
    simp only [addHiddenNodes]
    rw [ih, create_innovation_genome_counter]

theorem addOutputNodes_genome_counter (ch : InitChoices) (n : Nat) : ∀ idx m g,
    ((addOutputNodes ch idx n m g).2).next_genome_id_counter = m.next_genome_id_counter := by
  induction n with
  | zero => intro idx m g; rfl
  | succ k ih =>
    intro idx m g
    simp only [addOutputNodes]
    rw [ih, create_innovation_genome_counter]

theorem initConnLoop_genome_counter (ch : InitChoices) (n : Nat) : ∀ i m g,
    ((initConnLoop ch i n m g).2).next_genome_id_counter = m.next_genome_id_counter := by
  induction n with
  | zero => intro i m g; rfl
  | succ k ih =>
    intro i m g
    simp only [initConnLoop]
    rw [ih]
    split
    · split
      · rw [create_innovation_genome_counter]
      · rfl
    · rfl

theorem feedforwardGenomeInit_genome_counter (gid ni no : Nat) (m : InnovationManager)
    (nh : Nat) (ch : InitChoices) :
    ((feedforwardGenomeInit gid ni no m nh ch).2).next_genome_id_counter
      = m.next_genome_id_counter := by
  simp only [feedforwardGenomeInit]
  rw [initConnLoop_genome_counter, addOutputNodes_genome_counter,
    addHiddenNodes_genome_counter, addInputNodes_genome_counter]

/-- C5: refuted by the code.  `next_genome_id` itself already increments the
genome-id counter before returning the old value, and both construction paths
additionally call `increment_genome_id` afterwards, so every construction —
initial population creation and crossover alike — advances the counter by
exactly 2, not 1 (the issued ids are 0, 2, 4, …). -/
theorem C5_construction_consumes_two_genome_ids
    (m : InnovationManager) (ni no nh : Nat) (ch : InitChoices)
    (p1 p2 : Genome) (mc : InnovationManager) (cc : CrossChoices) :
    (create_initial_genome_population m ni no nh ch).2.next_genome_id_counter
      = m.next_genome_id_counter + 2 ∧
    (crossover p1 p2 mc cc).2.next_genome_id_counter
      = mc.next_genome_id_counter + 2 := by
  constructor
  · simp only [create_initial_genome_population, increment_genome_id]
    rw [feedforwardGenomeInit_genome_counter]
    simp only [next_genome_id]
  · simp only [crossover, increment_genome_id]
    rw [feedforwardGenomeInit_genome_counter]
    simp only [next_genome_id]

theorem addInputNodes_innov_counter (n : Nat) : ∀ m g,
    ((addInputNodes m g n).2).next_innovation_number = m.next_innovation_number + n := by
  induction n with
  | zero => intro m g; rfl
  | succ k ih =>
    intro m g
    simp only [addInputNodes]
    rw [ih, create_innovation_none_counter]
    omega

theorem addHiddenNodes_innov_counter (ch : InitChoices) (n : Nat) : ∀ idx m g,
    ((addHiddenNodes ch idx n m g).2).next_innovation_number = m.next_innovation_number + n := by
  induction n with
  | zero => intro idx m g; rfl
  | succ k ih =>
    intro idx m g
    simp only [addHiddenNodes]
    rw [ih, create_innovation_none_counter]
    omega

theorem addOutputNodes_innov_counter (ch : InitChoices) (n : Nat) : ∀ idx m g,
    ((addOutputNodes ch idx n m g).2).next_innovation_number = m.next_innovation_number + n := by
  induction n with
  | zero => intro idx m g; rfl
  | succ k ih =>
    intro idx m g
    simp only [addOutputNodes]
    rw [ih, create_innovation_none_counter]
    omega

theorem initConnLoop_innov_counter (ch : InitChoices) (n : Nat) : ∀ i m g,
    ∃ k, ((initConnLoop ch i n m g).2).next_innovation_number
      = m.next_innovation_number + k := by
  induction n with
  | zero => intro i m g; exact ⟨0, rfl⟩
  | succ k ih =>
    intro i m g
    simp only [initConnLoop]
    rcases h1 : dlookup g.genes i with _ | gi
    · simpa only [h1] using ih (i + 1) m g
    · rcases h2 : dlookup g.genes (ch.connTarget i) with _ | go
      · simpa only [h1, h2] using ih (i + 1) m g
      · simp only [h1, h2]
        split
        · obtain ⟨j, hj⟩ := ih (i + 1) _ _
          refine ⟨1 + j, ?_⟩
          rw [hj, create_innovation_none_counter]
          omega
        · exact ih (i + 1) m g

theorem feedforwardGenomeInit_innov_counter (gid ni no : Nat) (m : InnovationManager)
    (nh : Nat) (ch : InitChoices) :
    ∃ k, ((feedforwardGenomeInit gid ni no m nh ch).2).next_innovation_number
      = m.next_innovation_number + (ni + nh + no) + k := by
  simp only [feedforwardGenomeInit]
  obtain ⟨k, hk⟩ := initConnLoop_innov_counter ch (ni + nh) 0 _ _
  refine ⟨k, ?_⟩
  rw [hk, addOutputNodes_innov_counter, addHiddenNodes_innov_counter,
    addInputNodes_innov_counter]
  omega

theorem addInputNodes_genome_id (n : Nat) : ∀ m g,
    ((addInputNodes m g n).1).genome_id = g.genome_id := by
  induction n with
  | zero => intro m g; rfl
  | succ k ih =>
    intro m g
    simp only [addInputNodes]
    rw [ih]

theorem addHiddenNodes_genome_id (ch : InitChoices) (n : Nat) : ∀ idx m g,
    ((addHiddenNodes ch idx n m g).1).genome_id = g.genome_id := by
  induction n with
  | zero => intro idx m g; rfl
  | succ k ih =>
    intro idx m g
    simp only [addHiddenNodes]
    rw [ih]

theorem addOutputNodes_genome_id (ch : InitChoices) (n : Nat) : ∀ idx m g,
    ((addOutputNodes ch idx n m g).1).genome_id = g.genome_id := by
  induction n with
  | zero => intro idx m g; rfl
  | succ k ih =>
    intro idx m g
    simp only [addOutputNodes]
    rw [ih]

theorem initConnLoop_genome_id (ch : InitChoices) (n : Nat) : ∀ i m g,
    ((initConnLoop ch i n m g).1).genome_id = g.genome_id := by
  induction n with
  | zero => intro i m g; rfl
  | succ k ih =>
    intro i m g
    simp only [initConnLoop]
    rw [ih]
    split
    · split <;> rfl
    · rfl

theorem feedforwardGenomeInit_genome_id (gid ni no : Nat) (m : InnovationManager)
    (nh : Nat) (ch : InitChoices) :
    ((feedforwardGenomeInit gid ni no m nh ch).1).genome_id = gid := by
  simp only [feedforwardGenomeInit]
  rw [initConnLoop_genome_id, addOutputNodes_genome_id, addHiddenNodes_genome_id,
    addInputNodes_genome_id]

/-- C9: confirmed.  `copy` returns a genome whose six data fields all equal the
original's (in the pure embedding this is record equality; the Python-level
"disjoint deep copies" aspect has no separate content here), yet it has the
claimed frame effect on the shared manager: because the clone is built by the
full constructor (with zero hidden nodes) before its fields are overwritten,
the global innovation counter advances by one per input node plus one per
output node plus one per accepted random initial connection (`k`). -/
theorem C9_copy_preserves_fields_but_mints_innovations (g : Genome)
    (m : InnovationManager) (ch : InitChoices) :
    (copyGenome g m ch).1 = g ∧
    ∃ k, (copyGenome g m ch).2.next_innovation_number
      = m.next_innovation_number + (get_num_inputs g + get_num_outputs g) + k := by
  constructor
  · have h := feedforwardGenomeInit_genome_id g.genome_id (get_num_inputs g)
      (get_num_outputs g) m 0 ch
    cases g with
    | mk gid ge co nn fi outs =>
      simp only [copyGenome] at h ⊢
      simp_all [Genome.mk.injEq]
  · obtain ⟨k, hk⟩ := feedforwardGenomeInit_innov_counter g.genome_id (get_num_inputs g)
      (get_num_outputs g) m 0 ch
    refine ⟨k, ?_⟩
    simp only [copyGenome]
    rw [hk]
    omega

theorem find?_map_replace {κ α : Type} [DecidableEq κ] (l : List (κ × α)) (k : κ) (v : α) :
    ((l.map (fun p => if p.1 = k then (k, v) else p)).find? (fun p => decide (p.1 = k)))
      = if (l.find? (fun p => decide (p.1 = k))).isSome then some (k, v) else none := by
  induction l with
  | nil => rfl
  | cons p t ih =>
    by_cases h : p.1 = k
    · simp [h]
    · simp only [List.map_cons, if_neg h]
      rw [List.find?_cons_of_neg _ (by simpa using h), List.find?_cons_of_neg _ (by simpa using h)]
      exact ih

theorem find?_map_replace_ne {κ α : Type} [DecidableEq κ] (l : List (κ × α)) (k : κ) (v : α)
    (k2 : κ) (h : k2 ≠ k) :
    ((l.map (fun p => if p.1 = k then (k, v) else p)).find? (fun p => decide (p.1 = k2)))
      = l.find? (fun p => decide (p.1 = k2)) := by
  induction l with
  | nil => rfl
  | cons p t ih =>
    by_cases hp : p.1 = k
    · simp only [List.map_cons, if_pos hp]
      rw [List.find?_cons_of_neg _ (by simpa using Ne.symm h),
        List.find?_cons_of_neg _ (by simp [hp]; exact Ne.symm h)]
      exact ih
    · simp only [List.map_cons, if_neg hp]
      by_cases hp2 : p.1 = k2
      · rw [List.find?_cons_of_pos _ (by simpa using hp2),
          List.find?_cons_of_pos _ (by simpa using hp2)]
      · rw [List.find?_cons_of_neg _ (by simpa using hp2),
          List.find?_cons_of_neg _ (by simpa using hp2)]
        exact ih

theorem dlookup_dinsert_self {κ α : Type} [DecidableEq κ] (l : List (κ × α)) (k : κ) (v : α) :
    dlookup (dinsert l k v) k = some v := by
  unfold dinsert
  split
  · next h => rw [dlookup, find?_map_replace, if_pos h]; rfl
  · next h =>
    have h0 : l.find? (fun p => decide (p.1 = k)) = none := by
      cases hf : l.find? (fun p => decide (p.1 = k)) with
      | none => rfl
      | some q => rw [hf] at h; simp at h
    rw [dlookup, List.find?_append, h0]
    simp [List.find?]

theorem dlookup_dinsert_ne {κ α : Type} [DecidableEq κ] (l : List (κ × α)) (k : κ) (v : α)
    (k2 : κ) (h : k2 ≠ k) :
    dlookup (dinsert l k v) k2 = dlookup l k2 := by
  unfold dinsert
  split
  · rw [dlookup, find?_map_replace_ne l k v k2 h]; rfl
  · rw [dlookup, List.find?_append]
    have h1 : ([(k, v)].find? (fun p => decide (p.1 = k2))) = none := by
      simp [List.find?, Ne.symm h]
    rw [h1]
    simp [dlookup]

theorem mem_dinsert {κ α : Type} [DecidableEq κ] {l : List (κ × α)} {k : κ} {v : α}
    {q : κ × α} (hq : q ∈ dinsert l k v) : q ∈ l ∨ q = (k, v) := by
  unfold dinsert at hq
  split at hq
  · obtain ⟨p, hp, he⟩ := List.mem_map.mp hq
    by_cases hpk : p.1 = k
    · right; rw [← he, if_pos hpk]
    · left; rw [← he, if_neg hpk]; exact hp
  · rcases List.mem_append.mp hq with h1 | h1
    · exact Or.inl h1
    · right; simpa using h1

theorem dlookup_mem {κ α : Type} [DecidableEq κ] {l : List (κ × α)} {k : κ} {v : α}
    (h : dlookup l k = some v) : (k, v) ∈ l := by
  unfold dlookup at h
  cases hf : l.find? (fun p => decide (p.1 = k)) with
  | none => rw [hf] at h; simp at h
  | some q =>
    rw [hf] at h
    have hq := List.find?_some hf
    have hm := List.mem_of_find?_eq_some hf
    simp at h hq
    rw [← h, ← hq]
    simpa using hm

theorem dlookup_eq_none_iff {κ α : Type} [DecidableEq κ] {l : List (κ × α)} {k : κ} :
    dlookup l k = none ↔ ∀ p ∈ l, p.1 ≠ k := by
  unfold dlookup
  rw [Option.map_eq_none', List.find?_eq_none]
  simp

theorem foldl_dstep_preserve {κ α : Type} [DecidableEq κ] (f : Nat → Option (κ × α)) (x : κ) :
    ∀ (L : List Nat) (acc : List (κ × α)),
      (∀ i ∈ L, ∀ q, f i = some q → q.1 ≠ x) →
      dlookup (L.foldl (dstep f) acc) x = dlookup acc x := by
  intro L
  induction L with
  | nil => intro acc _; rfl
  | cons j rest ih =>
    intro acc hL
    simp only [List.foldl_cons]
    rw [ih _ (fun i hi => hL i (List.mem_cons_of_mem _ hi))]
    unfold dstep
    cases hf : f j with
    | none => rfl
    | some q =>
      exact dlookup_dinsert_ne _ _ _ _
        (fun he => hL j (List.mem_cons_self _ _) q hf (he ▸ rfl))

theorem foldl_dstep_lookup {κ α : Type} [DecidableEq κ] (f : Nat → Option (κ × α)) :
    ∀ (L : List Nat) (acc : List (κ × α)) (i : Nat) (q : κ × α), L.Nodup → i ∈ L →
      f i = some q →
      (∀ j ∈ L, ∀ qj, f j = some qj → qj.1 = q.1 → j = i) →
      dlookup (L.foldl (dstep f) acc) q.1 = some q.2 := by
  intro L
  induction L with
  | nil => intro acc i q _ hi; exact absurd hi (List.not_mem_nil i)
  | cons j rest ih =>
    intro acc i q hnd hi hf hinj
    simp only [List.foldl_cons]
    rcases List.mem_cons.mp hi with rfl | hirest
    · rw [foldl_dstep_preserve f q.1 rest _ ?hno]
      case hno =>
        intro j2 hj2 qj hfj heq
        have hji := hinj j2 (List.mem_cons_of_mem _ hj2) qj hfj heq
        rw [hji] at hj2
        exact absurd hj2 ((List.nodup_cons.mp hnd).1)
      rw [dstep, hf]
      exact dlookup_dinsert_self acc q.1 q.2
    · exact ih (dstep f acc j) i q hnd.of_cons hirest hf
        (fun j2 hj2 qj hfj heq => hinj j2 (List.mem_cons_of_mem _ hj2) qj hfj heq)

theorem mem_foldl_dstep {κ α : Type} [DecidableEq κ] (f : Nat → Option (κ × α)) :
    ∀ (L : List Nat) (acc : List (κ × α)) (q : κ × α), q ∈ L.foldl (dstep f) acc →
      q ∈ acc ∨ ∃ i ∈ L, f i = some q := by
  intro L
  induction L with
  | nil => intro acc q h; exact Or.inl h
  | cons j rest ih =>
    intro acc q h
    simp only [List.foldl_cons] at h
    rcases ih _ q h with h1 | h1
    · unfold dstep at h1
      cases hf : f j with
      | none => rw [hf] at h1; exact Or.inl h1
      | some p =>
        rw [hf] at h1
        rcases mem_dinsert h1 with h2 | h2
        · exact Or.inl h2
        · right
          exact ⟨j, List.mem_cons_self _ _, by rw [hf, h2]⟩
    · obtain ⟨i, hi2, hq⟩ := h1
      exact Or.inr ⟨i, List.mem_cons_of_mem _ hi2, hq⟩

theorem findGeneByInnov_some {genes : List (Nat × GeneInfo)} {i : Nat} {p : Nat × GeneInfo}
    (h : findGeneByInnov genes i = some p) : p ∈ genes ∧ p.2.innov = i := by
  refine ⟨List.mem_of_find?_eq_some h, ?_⟩
  have hq := List.find?_some h
  simpa using hq

theorem findConnByInnov_some {conns : List ((Nat × Nat × Nat) × ℚ)} {i : Nat}
    {q : (Nat × Nat × Nat) × ℚ} (h : findConnByInnov conns i = some q) :
    q ∈ conns ∧ q.1.2.2 = i := by
  refine ⟨List.mem_of_find?_eq_some h, ?_⟩
  have hq := List.find?_some h
  simpa using hq

theorem geneStep_eq_dstep (genes1 genes2 : List (Nat × GeneInfo)) (fitter1 : Bool)
    (coin : Nat → Bool) :
    geneStep genes1 genes2 fitter1 coin = dstep (inheritedGene genes1 genes2 fitter1 coin) := by
  funext child i
  unfold geneStep inheritedGene dstep
  rcases h1 : findGeneByInnov genes1 i with _ | p1 <;>
    rcases h2 : findGeneByInnov genes2 i with _ | p2 <;>
      simp only [h1, h2] <;>
    first
      | rfl
      | (cases hf : fitter1 <;> simp [hf])
      | (cases hc : coin i <;> simp [hc])

theorem connStep_eq_dstep (cs1 cs2 : List ((Nat × Nat × Nat) × ℚ)) (fitter1 : Bool)
    (coin : Nat → Bool) :
    connStep cs1 cs2 fitter1 coin = dstep (inheritedConn cs1 cs2 fitter1 coin) := by
  funext child i
  unfold connStep inheritedConn dstep
  rcases h1 : findConnByInnov cs1 i with _ | q1 <;>
    rcases h2 : findConnByInnov cs2 i with _ | q2 <;>
      simp only [h1, h2] <;>
    first
      | rfl
      | (cases hf : fitter1 <;> simp [hf])

theorem inheritedGene_innov {genes1 genes2 : List (Nat × GeneInfo)} {fitter1 : Bool}
    {coin : Nat → Bool} {i : Nat} {q : Nat × GeneInfo}
    (h : inheritedGene genes1 genes2 fitter1 coin i = some q) : q.2.innov = i := by
  unfold inheritedGene at h
  rcases h1 : findGeneByInnov genes1 i with _ | p1 <;>
    rcases h2 : findGeneByInnov genes2 i with _ | p2 <;> rw [h1, h2] at h
  · exact absurd h (by simp)
  · cases hf : fitter1 <;> rw [hf] at h <;> simp only [Bool.not_true, Bool.not_false,
      if_true, if_false, ite_true, ite_false, Bool.false_eq_true, Bool.true_eq_false] at h
    · obtain rfl := Option.some.inj h
      exact (findGeneByInnov_some h2).2
    · exact absurd h (by simp)
  · cases hf : fitter1 <;> rw [hf] at h <;> simp only [Bool.not_true, Bool.not_false,
      if_true, if_false, ite_true, ite_false, Bool.false_eq_true, Bool.true_eq_false] at h
    · exact absurd h (by simp)
    · obtain rfl := Option.some.inj h
      exact (findGeneByInnov_some h1).2
  · cases hc : coin i <;> rw [hc] at h <;> simp only [if_true, if_false, ite_true,
      ite_false, Bool.false_eq_true, Bool.true_eq_false] at h
    · obtain rfl := Option.some.inj h
      exact (findGeneByInnov_some h2).2
    · obtain rfl := Option.some.inj h
      exact (findGeneByInnov_some h1).2

theorem inheritedGene_origin {genes1 genes2 : List (Nat × GeneInfo)} {fitter1 : Bool}
    {coin : Nat → Bool} {i : Nat} {q : Nat × GeneInfo}
    (h : inheritedGene genes1 genes2 fitter1 coin i = some q) :
    ∃ g, ((q.1, g) ∈ genes1 ∨ (q.1, g) ∈ genes2) ∧ g.innov = i := by
  unfold inheritedGene at h
  rcases h1 : findGeneByInnov genes1 i with _ | p1 <;>
    rcases h2 : findGeneByInnov genes2 i with _ | p2 <;> rw [h1, h2] at h
  · exact absurd h (by simp)
  · cases hf : fitter1 <;> rw [hf] at h <;> simp only [Bool.not_true, Bool.not_false,
      if_true, if_false, ite_true, ite_false, Bool.false_eq_true, Bool.true_eq_false] at h
    · obtain rfl := Option.some.inj h
      obtain ⟨hm, hinn⟩ := findGeneByInnov_some h2
      exact ⟨p2.2, Or.inr (by simpa using hm), hinn⟩
    · exact absurd h (by simp)
  · cases hf : fitter1 <;> rw [hf] at h <;> simp only [Bool.not_true, Bool.not_false,
      if_true, if_false, ite_true, ite_false, Bool.false_eq_true, Bool.true_eq_false] at h
    · exact absurd h (by simp)
    · obtain rfl := Option.some.inj h
      obtain ⟨hm, hinn⟩ := findGeneByInnov_some h1
      exact ⟨p1.2, Or.inl (by simpa using hm), hinn⟩
  · cases hc : coin i <;> rw [hc] at h <;> simp only [if_true, if_false, ite_true,
      ite_false, Bool.false_eq_true, Bool.true_eq_false] at h
    · obtain rfl := Option.some.inj h
      obtain ⟨hm, hinn⟩ := findGeneByInnov_some h2
      exact ⟨p2.2, Or.inr (by simpa using hm), hinn⟩
    · obtain rfl := Option.some.inj h
      obtain ⟨hm, hinn⟩ := findGeneByInnov_some h1
      exact ⟨p1.2, Or.inl (by simpa using hm), hinn⟩

theorem inheritedConn_key {cs1 cs2 : List ((Nat × Nat × Nat) × ℚ)} {fitter1 : Bool}
    {coin : Nat → Bool} {i : Nat} {q : (Nat × Nat × Nat) × ℚ}
    (h : inheritedConn cs1 cs2 fitter1 coin i = some q) : q.1.2.2 = i := by
  unfold inheritedConn at h
  rcases h1 : findConnByInnov cs1 i with _ | q1 <;>
    rcases h2 : findConnByInnov cs2 i with _ | q2 <;> rw [h1, h2] at h
  · exact absurd h (by simp)
  · cases hf : fitter1 <;> rw [hf] at h <;> simp only [Bool.not_true, Bool.not_false,
      if_true, if_false, ite_true, ite_false, Bool.false_eq_true, Bool.true_eq_false] at h
    · obtain rfl := Option.some.inj h
      exact (findConnByInnov_some h2).2
    · exact absurd h (by simp)
  · cases hf : fitter1 <;> rw [hf] at h <;> simp only [Bool.not_true, Bool.not_false,
      if_true, if_false, ite_true, ite_false, Bool.false_eq_true, Bool.true_eq_false] at h
    · exact absurd h (by simp)
    · obtain rfl := Option.some.inj h
      exact (findConnByInnov_some h1).2
  · cases hc : coin i <;> rw [hc] at h <;> simp only [if_true, if_false, ite_true,
      ite_false, Bool.false_eq_true, Bool.true_eq_false] at h
    · obtain rfl := Option.some.inj h
      rfl
    · obtain rfl := Option.some.inj h
      rfl

theorem insertLe_perm {α : Type} (le : α → α → Bool) (a : α) :
    ∀ l : List α, (insertLe le a l).Perm (a :: l) := by
  intro l
  induction l with
  | nil => exact List.Perm.refl _
  | cons b t ih =>
    unfold insertLe
    by_cases h : le a b = true
    · rw [if_pos h]
    · rw [if_neg h]
      exact (ih.cons b).trans (List.Perm.swap a b t)

theorem insertionSort_perm {α : Type} (le : α → α → Bool) :
    ∀ l : List α, (insertionSort le l).Perm l := by
  intro l
  induction l with
  | nil => exact List.Perm.refl _
  | cons a t ih =>
    exact (insertLe_perm le a (insertionSort le t)).trans (ih.cons a)

theorem mem_insertionSort {α : Type} {le : α → α → Bool} {a : α} {l : List α} :
    a ∈ insertionSort le l ↔ a ∈ l :=
  (insertionSort_perm le l).mem_iff

theorem mem_sortedInnovUnion {l1 l2 : List Nat} {a : Nat} :
    a ∈ sortedInnovUnion l1 l2 ↔ a ∈ l1 ∨ a ∈ l2 := by
  unfold sortedInnovUnion
  rw [mem_insertionSort, List.mem_dedup, List.mem_append]

theorem nodup_sortedInnovUnion (l1 l2 : List Nat) : (sortedInnovUnion l1 l2).Nodup := by
  unfold sortedInnovUnion
  exact ((insertionSort_perm _ _).symm).nodup (List.nodup_dedup _)

theorem inheritedConn_innov_mem {cs1 cs2 : List ((Nat × Nat × Nat) × ℚ)} {fitter1 : Bool}
    {coin : Nat → Bool} {i : Nat} {q : (Nat × Nat × Nat) × ℚ}
    (h : inheritedConn cs1 cs2 fitter1 coin i = some q) :
    i ∈ cs1.map (fun p => p.1.2.2) ∨ i ∈ cs2.map (fun p => p.1.2.2) := by
  unfold inheritedConn at h
  rcases h1 : findConnByInnov cs1 i with _ | q1 <;>
    rcases h2 : findConnByInnov cs2 i with _ | q2 <;> rw [h1, h2] at h
  · exact absurd h (by simp)
  · obtain ⟨hm, hinn⟩ := findConnByInnov_some h2
    exact Or.inr (by rw [← hinn]; exact List.mem_map_of_mem _ hm)
  · obtain ⟨hm, hinn⟩ := findConnByInnov_some h1
    exact Or.inl (by rw [← hinn]; exact List.mem_map_of_mem _ hm)
  · obtain ⟨hm, hinn⟩ := findConnByInnov_some h1
    exact Or.inl (by rw [← hinn]; exact List.mem_map_of_mem _ hm)

theorem crossover_genes_eq (p1 p2 : Genome) (m : InnovationManager) (ch : CrossChoices) :
    (crossover p1 p2 m ch).1.genes
      = (sortedInnovUnion (p1.genes.map (fun p => p.2.innov))
          (p2.genes.map (fun p => p.2.innov))).foldl
          (dstep (inheritedGene p1.genes p2.genes
            (pyFitterIsP1 p1.fitness p2.fitness) ch.geneCoin)) [] := by
  rw [← geneStep_eq_dstep]
  rfl

theorem crossover_connections_eq (p1 p2 : Genome) (m : InnovationManager) (ch : CrossChoices) :
    (crossover p1 p2 m ch).1.connections
      = (sortedInnovUnion (p1.connections.map (fun p => p.1.2.2))
          (p2.connections.map (fun p => p.1.2.2))).foldl
          (dstep (inheritedConn p1.connections p2.connections
            (pyFitterIsP1 p1.fitness p2.fitness) ch.connCoin)) [] := by
  rw [← connStep_eq_dstep]
  rfl

theorem crossover_next_node_id_eq (p1 p2 : Genome) (m : InnovationManager) (ch : CrossChoices) :
    (crossover p1 p2 m ch).1.next_node_id
      = if (crossover p1 p2 m ch).1.genes.isEmpty then 0
        else maxKeyNat (crossover p1 p2 m ch).1.genes + 1 := rfl

theorem keys_nodup_functional {κ α : Type} [DecidableEq κ] {l : List (κ × α)}
    (hnd : (l.map Prod.fst).Nodup) {k : κ} {a b : α}
    (ha : (k, a) ∈ l) (hb : (k, b) ∈ l) : a = b := by
  induction l with
  | nil => exact absurd ha (List.not_mem_nil _)
  | cons p t ih =>
    rw [List.map_cons] at hnd
    obtain ⟨hhead, htail⟩ := List.nodup_cons.mp hnd
    rcases List.mem_cons.mp ha with ha1 | ha1 <;> rcases List.mem_cons.mp hb with hb1 | hb1
    · exact (Prod.ext_iff.mp (ha1.trans hb1.symm)).2
    · exfalso
      apply hhead
      rw [← ha1]
      exact List.mem_map.mpr ⟨(k, b), hb1, rfl⟩
    · exfalso
      apply hhead
      rw [← hb1]
      exact List.mem_map.mpr ⟨(k, a), ha1, rfl⟩
    · exact ih htail ha1 hb1

theorem inheritedGene_sided {genes1 genes2 : List (Nat × GeneInfo)} {fitter1 : Bool}
    {coin : Nat → Bool} {i : Nat} {q : Nat × GeneInfo}
    (hmatch : ∀ e1 ∈ genes1, ∀ e2 ∈ genes2, e1.2.innov = e2.2.innov → e1.1 = e2.1)
    (h : inheritedGene genes1 genes2 fitter1 coin i = some q) :
    (fitter1 = true → ∃ g, (q.1, g) ∈ genes1 ∧ g.innov = i) ∧
    (fitter1 = false → ∃ g, (q.1, g) ∈ genes2 ∧ g.innov = i) := by
  unfold inheritedGene at h
  rcases h1 : findGeneByInnov genes1 i with _ | p1 <;>
    rcases h2 : findGeneByInnov genes2 i with _ | p2 <;> rw [h1, h2] at h
  · exact absurd h (by simp)
  · cases hf : fitter1 <;> rw [hf] at h <;> simp only [Bool.not_true, Bool.not_false,
      if_true, if_false, ite_true, ite_false, Bool.false_eq_true, Bool.true_eq_false] at h
    · obtain rfl := Option.some.inj h
      obtain ⟨hm2, hi2⟩ := findGeneByInnov_some h2
      exact ⟨fun hc => absurd hc (by simp), fun b => ⟨p2.2, by simpa using hm2, hi2⟩⟩
    · exact absurd h (by simp)
  · cases hf : fitter1 <;> rw [hf] at h <;> simp only [Bool.not_true, Bool.not_false,
      if_true, if_false, ite_true, ite_false, Bool.false_eq_true, Bool.true_eq_false] at h
    · exact absurd h (by simp)
    · obtain rfl := Option.some.inj h
      obtain ⟨hm1, hi1⟩ := findGeneByInnov_some h1
      exact ⟨fun b => ⟨p1.2, by simpa using hm1, hi1⟩, fun hc => absurd hc (by simp)⟩
  · obtain ⟨hm1, hi1⟩ := findGeneByInnov_some h1
    obtain ⟨hm2, hi2⟩ := findGeneByInnov_some h2
    have hkeq : p1.1 = p2.1 := hmatch p1 hm1 p2 hm2 (by rw [hi1, hi2])
    cases hc : coin i <;> rw [hc] at h <;> simp only [if_true, if_false, ite_true,
      ite_false, Bool.false_eq_true, Bool.true_eq_false] at h
    · obtain rfl := Option.some.inj h
      refine ⟨fun b => ⟨p1.2, ?_, hi1⟩, fun b => ⟨p2.2, by simpa using hm2, hi2⟩⟩
      have : ((p2.1, ⟨p2.2.typ, p2.2.activation, p2.2.innov,
          some (p2.2.bias.getD 0)⟩) : Nat × GeneInfo).1 = p1.1 := hkeq.symm
      rw [this]
      simpa using hm1
    · obtain rfl := Option.some.inj h
      refine ⟨fun b => ⟨p1.2, by simpa using hm1, hi1⟩, fun b => ⟨p2.2, ?_, hi2⟩⟩
      have : ((p1.1, ⟨p1.2.typ, p1.2.activation, p1.2.innov,
          some (p1.2.bias.getD 0)⟩) : Nat × GeneInfo).1 = p2.1 := hkeq
      rw [this]
      simpa using hm2

theorem crossover_gene_lookup (p1 p2 : Genome) (m : InnovationManager) (ch : CrossChoices)
    (hnd1 : (p1.genes.map Prod.fst).Nodup)
    (hnd2 : (p2.genes.map Prod.fst).Nodup)
    (hmatch : ∀ e1 ∈ p1.genes, ∀ e2 ∈ p2.genes, e1.2.innov = e2.2.innov → e1.1 = e2.1)
    {i : Nat} {q : Nat × GeneInfo}
    (hq : inheritedGene p1.genes p2.genes (pyFitterIsP1 p1.fitness p2.fitness)
      ch.geneCoin i = some q) :
    dlookup (crossover p1 p2 m ch).1.genes q.1 = some q.2 := by
  rw [crossover_genes_eq]
  obtain ⟨g0, hg0, hg0innov⟩ := inheritedGene_origin hq
  have hiL : i ∈ sortedInnovUnion (p1.genes.map (fun p => p.2.innov))
      (p2.genes.map (fun p => p.2.innov)) := by
    rw [mem_sortedInnovUnion]
    rcases hg0 with hmem | hmem
    · exact Or.inl (by rw [← hg0innov]; exact List.mem_map_of_mem _ hmem)
    · exact Or.inr (by rw [← hg0innov]; exact List.mem_map_of_mem _ hmem)
  apply foldl_dstep_lookup _ _ _ i q (nodup_sortedInnovUnion _ _) hiL hq
  intro j hj qj hfj hkeq
  cases hffit : pyFitterIsP1 p1.fitness p2.fitness
  · obtain ⟨gi, hgi, hgii⟩ := (inheritedGene_sided hmatch hq).2 hffit
    obtain ⟨gj, hgj, hgjj⟩ := (inheritedGene_sided hmatch hfj).2 hffit
    rw [hkeq] at hgj
    have hgg := keys_nodup_functional hnd2 hgj hgi
    rw [hgg] at hgjj
    exact hgjj.symm.trans hgii
  · obtain ⟨gi, hgi, hgii⟩ := (inheritedGene_sided hmatch hq).1 hffit
    obtain ⟨gj, hgj, hgjj⟩ := (inheritedGene_sided hmatch hfj).1 hffit
    rw [hkeq] at hgj
    have hgg := keys_nodup_functional hnd1 hgj hgi
    rw [hgg] at hgjj
    exact hgjj.symm.trans hgii

theorem crossover_gene_absent (p1 p2 : Genome) (m : InnovationManager) (ch : CrossChoices)
    {i : Nat}
    (hn : inheritedGene p1.genes p2.genes (pyFitterIsP1 p1.fitness p2.fitness)
      ch.geneCoin i = none) :
    ∀ q ∈ (crossover p1 p2 m ch).1.genes, q.2.innov ≠ i := by
  rw [crossover_genes_eq]
  intro q hq hinnov
  rcases mem_foldl_dstep _ _ _ _ hq with h0 | ⟨j, _, hfj⟩
  · exact absurd h0 (List.not_mem_nil q)
  · have := inheritedGene_innov hfj
    rw [hinnov] at this
    rw [← this] at hfj
    rw [hn] at hfj
    exact absurd hfj (by simp)

theorem crossover_conn_lookup (p1 p2 : Genome) (m : InnovationManager) (ch : CrossChoices)
    {i : Nat} {q : (Nat × Nat × Nat) × ℚ}
    (hq : inheritedConn p1.connections p2.connections
      (pyFitterIsP1 p1.fitness p2.fitness) ch.connCoin i = some q) :
    dlookup (crossover p1 p2 m ch).1.connections q.1 = some q.2 := by
  rw [crossover_connections_eq]
  have hiL : i ∈ sortedInnovUnion (p1.connections.map (fun p => p.1.2.2))
      (p2.connections.map (fun p => p.1.2.2)) := by
    rw [mem_sortedInnovUnion]
    exact inheritedConn_innov_mem hq
  apply foldl_dstep_lookup _ _ _ i q (nodup_sortedInnovUnion _ _) hiL hq
  intro j hj qj hfj hkeq
  have hkj := inheritedConn_key hfj
  have hki := inheritedConn_key hq
  rw [hkeq] at hkj
  rw [hki] at hkj
  exact hkj.symm

theorem crossover_conn_absent (p1 p2 : Genome) (m : InnovationManager) (ch : CrossChoices)
    {i : Nat}
    (hn : inheritedConn p1.connections p2.connections
      (pyFitterIsP1 p1.fitness p2.fitness) ch.connCoin i = none) :
    ∀ q ∈ (crossover p1 p2 m ch).1.connections, q.1.2.2 ≠ i := by
  rw [crossover_connections_eq]
  intro q hq hinnov
  rcases mem_foldl_dstep _ _ _ _ hq with h0 | ⟨j, _, hfj⟩
  · exact absurd h0 (List.not_mem_nil q)
  · have := inheritedConn_key hfj
    rw [hinnov] at this
    rw [← this] at hfj
    rw [hn] at hfj
    exact absurd hfj (by simp)

/-- C4: confirmed.  Hypotheses: each parent's gene dict has distinct node-id
keys (true of every Python dict), and an innovation number present in *both*
parents sits at the same node id in each (`hmatch`) — the descent invariant of
this program, since matching innovations arise only by inheritance, which
copies node ids; for independently constructed parents (e.g. any generation-0
pair, which share no innovation numbers because the manager never reuses)
`hmatch` is vacuous, so all such pairs are covered.  These rule out two
distinct inherited innovations writing the same child dict key.  Crossover
then inherits exactly as claimed: an innovation present in both parents
contributes the coin-chosen parent's gene (node genes are rebuilt with a
defaulted bias slot, matching the source); an innovation present in only one
parent is inherited iff that parent is the fitter one (`pyFitterIsP1`, the
source's selector, which on distinct defined fitnesses is exactly "parent1's
fitness is greater"); the identical rule holds for connection genes; and the
child's `next_node_id` is one past its maximum inherited node id, or 0 with
no genes. -/
theorem C4_crossover_inherits_by_innovation (parent1 parent2 : Genome)
    (m : InnovationManager) (ch : CrossChoices)
    (hnd1 : (parent1.genes.map Prod.fst).Nodup)
    (hnd2 : (parent2.genes.map Prod.fst).Nodup)
    (hmatch : ∀ e1 ∈ parent1.genes, ∀ e2 ∈ parent2.genes,
      e1.2.innov = e2.2.innov → e1.1 = e2.1) :
    (∀ i pg1 pg2, findGeneByInnov parent1.genes i = some pg1 →
       findGeneByInnov parent2.genes i = some pg2 →
       dlookup (crossover parent1 parent2 m ch).1.genes
           (if ch.geneCoin i then pg1.1 else pg2.1)
         = some (if ch.geneCoin i
             then ⟨pg1.2.typ, pg1.2.activation, pg1.2.innov, some (pg1.2.bias.getD 0)⟩
             else ⟨pg2.2.typ, pg2.2.activation, pg2.2.innov, some (pg2.2.bias.getD 0)⟩)) ∧
    (∀ i pg1, findGeneByInnov parent1.genes i = some pg1 →
       findGeneByInnov parent2.genes i = none →
       (pyFitterIsP1 parent1.fitness parent2.fitness = true →
          dlookup (crossover parent1 parent2 m ch).1.genes pg1.1 = some pg1.2) ∧
       (pyFitterIsP1 parent1.fitness parent2.fitness = false →
          ∀ q ∈ (crossover parent1 parent2 m ch).1.genes, q.2.innov ≠ i)) ∧
    (∀ i pg2, findGeneByInnov parent1.genes i = none →
       findGeneByInnov parent2.genes i = some pg2 →
       (pyFitterIsP1 parent1.fitness parent2.fitness = false →
          dlookup (crossover parent1 parent2 m ch).1.genes pg2.1 = some pg2.2) ∧
       (pyFitterIsP1 parent1.fitness parent2.fitness = true →
          ∀ q ∈ (crossover parent1 parent2 m ch).1.genes, q.2.innov ≠ i)) ∧
    (∀ i qc1 qc2, findConnByInnov parent1.connections i = some qc1 →
       findConnByInnov parent2.connections i = some qc2 →
       dlookup (crossover parent1 parent2 m ch).1.connections
           (if ch.connCoin i then (qc1.1.1, qc1.1.2.1, i) else (qc2.1.1, qc2.1.2.1, i))
         = some (if ch.connCoin i then qc1.2 else qc2.2)) ∧
    (∀ i qc1, findConnByInnov parent1.connections i = some qc1 →
       findConnByInnov parent2.connections i = none →
       (pyFitterIsP1 parent1.fitness parent2.fitness = true →
          dlookup (crossover parent1 parent2 m ch).1.connections qc1.1 = some qc1.2) ∧
       (pyFitterIsP1 parent1.fitness parent2.fitness = false →
          ∀ q ∈ (crossover parent1 parent2 m ch).1.connections, q.1.2.2 ≠ i)) ∧
    (∀ i qc2, findConnByInnov parent1.connections i = none →
       findConnByInnov parent2.connections i = some qc2 →
       (pyFitterIsP1 parent1.fitness parent2.fitness = false →
          dlookup (crossover parent1 parent2 m ch).1.connections qc2.1 = some qc2.2) ∧
       (pyFitterIsP1 parent1.fitness parent2.fitness = true →
          ∀ q ∈ (crossover parent1 parent2 m ch).1.connections, q.1.2.2 ≠ i)) ∧
    ((crossover parent1 parent2 m ch).1.genes = [] →
       (crossover parent1 parent2 m ch).1.next_node_id = 0) ∧
    ((crossover parent1 parent2 m ch).1.genes ≠ [] →
       (crossover parent1 parent2 m ch).1.next_node_id
         = maxKeyNat (crossover parent1 parent2 m ch).1.genes + 1) ∧
    (∀ f1 f2, parent1.fitness = some f1 → parent2.fitness = some f2 →
       pyFitterIsP1 parent1.fitness parent2.fitness = decide (f1 > f2)) := by
  refine ⟨?_, ?_, ?_, ?_, ?_, ?_, ?_, ?_, ?_⟩
  · intro i pg1 pg2 hf1 hf2
    cases hc : ch.geneCoin i
    · have hq : inheritedGene parent1.genes parent2.genes
          (pyFitterIsP1 parent1.fitness parent2.fitness) ch.geneCoin i
          = some (pg2.1, ⟨pg2.2.typ, pg2.2.activation, pg2.2.innov,
              some (pg2.2.bias.getD 0)⟩) := by
        unfold inheritedGene
        rw [hf1, hf2, hc]
        simp
      have h := crossover_gene_lookup parent1 parent2 m ch hnd1 hnd2 hmatch hq
      simpa using h
    · have hq : inheritedGene parent1.genes parent2.genes
          (pyFitterIsP1 parent1.fitness parent2.fitness) ch.geneCoin i
          = some (pg1.1, ⟨pg1.2.typ, pg1.2.activation, pg1.2.innov,
              some (pg1.2.bias.getD 0)⟩) := by
        unfold inheritedGene
        rw [hf1, hf2, hc]
        simp
      have h := crossover_gene_lookup parent1 parent2 m ch hnd1 hnd2 hmatch hq
      simpa using h
  · intro i pg1 hf1 hf2
    constructor
    · intro hfit
      have hq : inheritedGene parent1.genes parent2.genes
          (pyFitterIsP1 parent1.fitness parent2.fitness) ch.geneCoin i = some pg1 := by
        unfold inheritedGene
        rw [hf1, hf2, hfit]
        simp
      exact crossover_gene_lookup parent1 parent2 m ch hnd1 hnd2 hmatch hq
    · intro hfit
      have hn : inheritedGene parent1.genes parent2.genes
          (pyFitterIsP1 parent1.fitness parent2.fitness) ch.geneCoin i = none := by
        unfold inheritedGene
        rw [hf1, hf2, hfit]
        simp
      exact crossover_gene_absent parent1 parent2 m ch hn
  · intro i pg2 hf1 hf2
    constructor
    · intro hfit
      have hq : inheritedGene parent1.genes parent2.genes
          (pyFitterIsP1 parent1.fitness parent2.fitness) ch.geneCoin i = some pg2 := by
        unfold inheritedGene
        rw [hf1, hf2, hfit]
        simp
      exact crossover_gene_lookup parent1 parent2 m ch hnd1 hnd2 hmatch hq
    · intro hfit
      have hn : inheritedGene parent1.genes parent2.genes
          (pyFitterIsP1 parent1.fitness parent2.fitness) ch.geneCoin i = none := by
        unfold inheritedGene
        rw [hf1, hf2, hfit]
        simp
      exact crossover_gene_absent parent1 parent2 m ch hn
  · intro i qc1 qc2 hf1 hf2
    cases hc : ch.connCoin i
    · have hq : inheritedConn parent1.connections parent2.connections
          (pyFitterIsP1 parent1.fitness parent2.fitness) ch.connCoin i
          = some ((qc2.1.1, qc2.1.2.1, i), qc2.2) := by
        unfold inheritedConn
        rw [hf1, hf2, hc]
        simp
      have h := crossover_conn_lookup parent1 parent2 m ch hq
      simpa using h
    · have hq : inheritedConn parent1.connections parent2.connections
          (pyFitterIsP1 parent1.fitness parent2.fitness) ch.connCoin i
          = some ((qc1.1.1, qc1.1.2.1, i), qc1.2) := by
        unfold inheritedConn
        rw [hf1, hf2, hc]
        simp
      have h := crossover_conn_lookup parent1 parent2 m ch hq
      simpa using h
  · intro i qc1 hf1 hf2
    constructor
    · intro hfit
      have hq : inheritedConn parent1.connections parent2.connections
          (pyFitterIsP1 parent1.fitness parent2.fitness) ch.connCoin i = some qc1 := by
        unfold inheritedConn
        rw [hf1, hf2, hfit]
        simp
      exact crossover_conn_lookup parent1 parent2 m ch hq
    · intro hfit
      have hn : inheritedConn parent1.connections parent2.connections
          (pyFitterIsP1 parent1.fitness parent2.fitness) ch.connCoin i = none := by
        unfold inheritedConn
        rw [hf1, hf2, hfit]
        simp
      exact crossover_conn_absent parent1 parent2 m ch hn
  · intro i qc2 hf1 hf2
    constructor
    · intro hfit
      have hq : inheritedConn parent1.connections parent2.connections
          (pyFitterIsP1 parent1.fitness parent2.fitness) ch.connCoin i = some qc2 := by
        unfold inheritedConn
        rw [hf1, hf2, hfit]
        simp
      exact crossover_conn_lookup parent1 parent2 m ch hq
    · intro hfit
      have hn : inheritedConn parent1.connections parent2.connections
          (pyFitterIsP1 parent1.fitness parent2.fitness) ch.connCoin i = none := by
        unfold inheritedConn
        rw [hf1, hf2, hfit]
        simp
      exact crossover_conn_absent parent1 parent2 m ch hn
  · intro hempty
    rw [crossover_next_node_id_eq]
    simp [hempty]
  · intro hne
    rw [crossover_next_node_id_eq]
    simp [List.isEmpty_iff, hne]
  · intro f1 f2 h1 h2
    rw [h1, h2]
    rfl

/-- Witness for C4 at concrete parents: the shared input gene (innovation 1)
comes from the coin-chosen parent1, parent1's private hidden gene (innovation
5) is inherited because parent1 is fitter (fitness 2 > 1), and the matching
connection (innovation 3) carries parent1's weight 7.  The final conjunct
covers an independently constructed (generation-0-style) pair with disjoint
innovation numbers, where `hmatch` holds vacuously: the fitter parent
`crossParentC` (fitness 3 > 2) contributes its private input gene. -/
theorem C4_crossover_witness :
    dlookup (crossover crossParentA crossParentB InnovationManager.init crossChW).1.genes 0
      = some ⟨"input", "identity", 1, some 0⟩ ∧
    dlookup (crossover crossParentA crossParentB InnovationManager.init crossChW).1.genes 2
      = some ⟨"hidden", "relu", 5, some 0⟩ ∧
    dlookup (crossover crossParentA crossParentB InnovationManager.init crossChW).1.connections
      (0, 1, 3) = some 7 ∧
    dlookup (crossover crossParentA crossParentC InnovationManager.init crossChW).1.genes 0
      = some ⟨"input", "identity", 7, none⟩ := by
  have h := C4_crossover_inherits_by_innovation crossParentA crossParentB
    InnovationManager.init crossChW (by decide) (by decide) (by decide)
  have h' := C4_crossover_inherits_by_innovation crossParentA crossParentC
    InnovationManager.init crossChW (by decide) (by decide) (by decide)
  refine ⟨?_, ?_, ?_, ?_⟩
  · have h1 := h.1 1 (0, ⟨"input", "identity", 1, none⟩) (0, ⟨"input", "identity", 1, none⟩)
      (by rfl) (by rfl)
    simpa using h1
  · have h2 := h.2.1 5 (2, ⟨"hidden", "relu", 5, some 0⟩) (by rfl) (by rfl)
    exact h2.1 (by decide)
  · have h3 := h.2.2.2.1 3 ((0, 1, 3), 7) ((0, 1, 3), 9) (by rfl) (by rfl)
    simpa using h3
  · have h4 := h'.2.2.1 7 (0, ⟨"input", "identity", 7, none⟩) (by rfl) (by rfl)
    exact h4.1 (by decide)

theorem dlookup_ne_none_of_mem {κ α : Type} [DecidableEq κ] {l : List (κ × α)} {k : κ}
    {v : α} (h : (k, v) ∈ l) : dlookup l k ≠ none := by
  intro hn
  exact (dlookup_eq_none_iff.mp hn (k, v) h) rfl

theorem mem_inputIndexPairs {g : Genome} {nid idx : Nat}
    (h : (nid, idx) ∈ inputIndexPairs g) :
    ∃ gi, (idx, (nid, gi)) ∈ g.genes.enum ∧ gi.typ = "input" := by
  unfold inputIndexPairs at h
  obtain ⟨a, ha, hfa⟩ := List.mem_filterMap.mp h
  by_cases ht : a.2.2.typ = "input"
  · rw [if_pos ht] at hfa
    have h12 := Option.some.inj hfa
    have h1 : a.2.1 = nid := congrArg Prod.fst h12
    have h2 : a.1 = idx := congrArg Prod.snd h12
    refine ⟨a.2.2, ?_, ht⟩
    have ha2 : a = (idx, (nid, a.2.2)) := by
      obtain ⟨i0, n0, g0⟩ := a
      simp only at h1 h2 ⊢
      simp [← h1, ← h2]
    rw [← ha2]
    exact ha
  · rw [if_neg ht] at hfa
    exact absurd hfa (by simp)

theorem inputIndexPairs_fst_mem_genes {g : Genome} {nid idx : Nat}
    (h : (nid, idx) ∈ inputIndexPairs g) : ∃ gi, (nid, gi) ∈ g.genes := by
  obtain ⟨gi, hen, _⟩ := mem_inputIndexPairs h
  exact ⟨gi, List.snd_mem_of_mem_enum hen⟩

theorem setInputValues_ok (inputs : List ℚ) :
    ∀ (pairs : List (Nat × Nat)) (acc : List (Nat × ℚ)),
      (∀ q ∈ pairs, q.2 < inputs.length) →
      ∃ nv, setInputValues inputs acc pairs = Except.ok nv := by
  intro pairs
  induction pairs with
  | nil => intro acc _; exact ⟨acc, rfl⟩
  | cons q rest ih =>
    intro acc hlt
    obtain ⟨nid, idx⟩ := q
    have hidx : idx < inputs.length := hlt (nid, idx) (List.mem_cons_self _ _)
    cases hg : inputs.get? idx with
    | none =>
      rw [List.get?_eq_none] at hg
      omega
    | some v =>
      obtain ⟨nv, hnv⟩ := ih (dinsert acc nid v) (fun q hq => hlt q (List.mem_cons_of_mem _ hq))
      refine ⟨nv, ?_⟩
      unfold setInputValues
      rw [hg]
      exact hnv

theorem setInputValues_lookup_none (inputs : List ℚ) (k : Nat) :
    ∀ (pairs : List (Nat × Nat)) (acc : List (Nat × ℚ)) (nv : List (Nat × ℚ)),
      setInputValues inputs acc pairs = Except.ok nv →
      dlookup acc k = none → k ∉ pairs.map Prod.fst → dlookup nv k = none := by
  intro pairs
  induction pairs with
  | nil =>
    intro acc nv h hacc _
    obtain rfl := Except.ok.inj h
    exact hacc
  | cons q rest ih =>
    intro acc nv h hacc hnk
    obtain ⟨nid, idx⟩ := q
    unfold setInputValues at h
    cases hg : inputs.get? idx with
    | none => rw [hg] at h; exact absurd h (by simp)
    | some v =>
      rw [hg] at h
      have hkne : k ≠ nid := by
        intro he
        exact hnk (by rw [he]; exact List.mem_map_of_mem _ (List.mem_cons_self _ _))
      refine ih (dinsert acc nid v) nv h ?_ ?_
      · rw [dlookup_dinsert_ne _ _ _ _ hkne]
        exact hacc
      · intro hmem
        exact hnk (List.mem_map.mpr (by
          obtain ⟨p, hp, he⟩ := List.mem_map.mp hmem
          exact ⟨p, List.mem_cons_of_mem _ hp, he⟩))

theorem activateNodeStep_fold_none (sigmoid tanhF : ℚ → ℚ) (g : Genome) (k : Nat)
    (hk : dlookup g.genes k = none) :
    ∀ (L : List Nat) (nv : List (Nat × ℚ)), dlookup nv k = none →
      dlookup (L.foldl (activateNodeStep sigmoid tanhF g) nv) k = none := by
  intro L
  induction L with
  | nil => intro nv h; exact h
  | cons nid rest ih =>
    intro nv h
    simp only [List.foldl_cons]
    apply ih
    unfold activateNodeStep
    cases hg : dlookup g.genes nid with
    | none => exact h
    | some gi =>
      have hne : k ≠ nid := by
        intro he
        rw [he, hg] at hk
        exact absurd hk (by simp)
      dsimp only
      by_cases ht : gi.typ = "input"
      · rw [if_pos ht]
        exact h
      · rw [if_neg ht]
        split
        · rw [dlookup_dinsert_ne _ _ _ _ hne]
          exact h
        · exact h

/-- C7: confirmed, under the data-model hypothesis that every input gene's
position in the gene-dict iteration order is below the input count (true of
all constructor-built genomes, whose input nodes are inserted first; without
it the source's `inputs[input_index]` could raise `IndexError` even at the
right arity).  `activate` then fails iff the input length differs from the
number of input nodes (it is a pure function, so the genome is trivially
unchanged), and on success returns one value per designated output node in
`output_nodes` order, with 0 for an output id that was never assigned a value
— in particular any id absent from the gene map. -/
theorem C7_activate_error_iff_input_arity (sigmoid tanhF : ℚ → ℚ) (g : Genome)
    (inputs : List ℚ)
    (hwf : ∀ q ∈ g.genes.enum, q.2.2.typ = "input" → q.1 < get_num_inputs g) :
    ((∃ e, activate sigmoid tanhF g inputs = Except.error e)
        ↔ inputs.length ≠ get_num_inputs g) ∧
    (∀ out, activate sigmoid tanhF g inputs = Except.ok out →
       ∃ val : Nat → ℚ, out = g.output_nodes.map val ∧
         ∀ nid, dlookup g.genes nid = none → val nid = 0) := by
  by_cases hlen : inputs.length = get_num_inputs g
  · have hpairs : ∀ q ∈ inputIndexPairs g, q.2 < inputs.length := by
      intro q hq
      obtain ⟨nid, idx⟩ := q
      obtain ⟨gi, hen, hty⟩ := mem_inputIndexPairs hq
      rw [hlen]
      exact hwf (idx, (nid, gi)) hen hty
    obtain ⟨nv0, hnv0⟩ := setInputValues_ok inputs (inputIndexPairs g) [] hpairs
    have hok : activate sigmoid tanhF g inputs
        = Except.ok (g.output_nodes.map (fun nid =>
            (dlookup ((insertionSort (fun a b => decide (a ≤ b)) (g.genes.map Prod.fst)).foldl
              (activateNodeStep sigmoid tanhF g) nv0) nid).getD 0)) := by
      unfold activate
      rw [if_neg (by simp [hlen])]
      rw [hnv0]
    refine ⟨⟨?_, ?_⟩, ?_⟩
    · rintro ⟨e, he⟩
      rw [hok] at he
      exact absurd he (by simp)
    · intro hne
      exact absurd hlen hne
    · intro out hout
      rw [hok] at hout
      obtain rfl := Except.ok.inj hout
      refine ⟨fun nid =>
        (dlookup ((insertionSort (fun a b => decide (a ≤ b)) (g.genes.map Prod.fst)).foldl
          (activateNodeStep sigmoid tanhF g) nv0) nid).getD 0, rfl, ?_⟩
      intro nid hnone
      have h0 : dlookup nv0 nid = none := by
        apply setInputValues_lookup_none inputs nid (inputIndexPairs g) [] nv0 hnv0 rfl
        intro hmem
        obtain ⟨p, hp, hfst⟩ := List.mem_map.mp hmem
        obtain ⟨p1, p2⟩ := p
        simp only at hfst
        obtain ⟨gi, hgm⟩ := inputIndexPairs_fst_mem_genes (hfst ▸ hp)
        exact dlookup_ne_none_of_mem hgm hnone
      have h1 := activateNodeStep_fold_none sigmoid tanhF g nid hnone
        (insertionSort (fun a b => decide (a ≤ b)) (g.genes.map Prod.fst)) nv0 h0
      simp only [h1]
      rfl
  · have herr : activate sigmoid tanhF g inputs = Except.error PyError.valueError := by
      unfold activate
      rw [if_pos hlen]
    refine ⟨⟨fun _ => hlen, fun _ => ⟨PyError.valueError, herr⟩⟩, ?_⟩
    intro out hout
    rw [herr] at hout
    exact absurd hout (by simp)

/-- Witness for C7: `fixtureSplitGenome` has one input node and inputs occupy
the leading gene positions; `activate` succeeds on a length-1 input list and
fails on a length-2 one. -/
theorem C7_activate_witness :
    (¬∃ e, activate (fun x => x) (fun x => x) fixtureSplitGenome [3] = Except.error e) ∧
    (∃ e, activate (fun x => x) (fun x => x) fixtureSplitGenome [3, 4] = Except.error e) := by
  have h1 := C7_activate_error_iff_input_arity (fun x => x) (fun x => x)
    fixtureSplitGenome [3] (by decide)
  have h2 := C7_activate_error_iff_input_arity (fun x => x) (fun x => x)
    fixtureSplitGenome [3, 4] (by decide)
  exact ⟨fun he => absurd (h1.1.mp he) (by decide), h2.1.mpr (by decide)⟩

theorem pruneFold_output_nodes : ∀ (L : List Nat) (g0 : Genome),
    (L.foldl (fun g2 orphan =>
      { g2 with
          genes := dremove g2.genes orphan,
          connections := g2.connections.filter
            (fun p => decide (p.1.1 ≠ orphan) && decide (p.1.2.1 ≠ orphan)) }) g0).output_nodes
      = g0.output_nodes := by
  intro L
  induction L with
  | nil => intro g0; rfl
  | cons o rest ih => intro g0; simp only [List.foldl_cons]; exact ih _

theorem dlookup_dremove_self {κ α : Type} [DecidableEq κ] (l : List (κ × α)) (k : κ) :
    dlookup (dremove l k) k = none := by
  rw [dlookup_eq_none_iff]
  intro p hp
  have := (List.mem_filter.mp hp).2
  simpa using this

theorem dlookup_dremove_none {κ α : Type} [DecidableEq κ] {l : List (κ × α)} {k o : κ}
    (h : dlookup l k = none) : dlookup (dremove l o) k = none := by
  rw [dlookup_eq_none_iff] at h ⊢
  intro p hp
  exact h p (List.mem_filter.mp hp).1

theorem pruneFold_genes_none : ∀ (L : List Nat) (g0 : Genome) (nid : Nat),
    (nid ∈ L ∨ dlookup g0.genes nid = none) →
    dlookup ((L.foldl (fun g2 orphan =>
      { g2 with
          genes := dremove g2.genes orphan,
          connections := g2.connections.filter
            (fun p => decide (p.1.1 ≠ orphan) && decide (p.1.2.1 ≠ orphan)) }) g0)).genes nid
      = none := by
  intro L
  induction L with
  | nil =>
    intro g0 nid h
    rcases h with h | h
    · exact absurd h (List.not_mem_nil nid)
    · exact h
  | cons o rest ih =>
    intro g0 nid h
    simp only [List.foldl_cons]
    rcases h with h | h
    · rcases List.mem_cons.mp h with rfl | hrest
      · exact ih _ nid (Or.inr (dlookup_dremove_self _ _))
      · exact ih _ nid (Or.inl hrest)
    · exact ih _ nid (Or.inr (dlookup_dremove_none h))

theorem activate_ok_form {sigmoid tanhF : ℚ → ℚ} {g : Genome} {inputs : List ℚ}
    {out : List ℚ} (hout : activate sigmoid tanhF g inputs = Except.ok out) :
    ∃ nv, setInputValues inputs [] (inputIndexPairs g) = Except.ok nv ∧
      out = g.output_nodes.map (fun nid =>
        (dlookup ((insertionSort (fun a b => decide (a ≤ b)) (g.genes.map Prod.fst)).foldl
          (activateNodeStep sigmoid tanhF g) nv) nid).getD 0) := by
  unfold activate at hout
  split at hout
  · exact absurd hout (by simp)
  · cases hsv : setInputValues inputs [] (inputIndexPairs g) with
    | error e => rw [hsv] at hout; exact absurd hout (by simp)
    | ok nv =>
      rw [hsv] at hout
      exact ⟨nv, rfl, (Except.ok.inj hout).symm⟩

/-- C10: confirmed.  `prune_orphan_nodes` never touches `output_nodes` and
deletes a fully isolated node (no incident connection in either direction)
from the gene map — including an output node — while `activate` always
returns exactly one value per entry of `output_nodes`, in order, producing 0
at the position of an output id that is absent from the gene map. -/
theorem C10_output_vector_length_stable (sigmoid tanhF : ℚ → ℚ) (g : Genome)
    (inputs : List ℚ) :
    ((prune_orphan_nodes g).output_nodes = g.output_nodes) ∧
    (∀ nid, nid ∈ g.genes.map Prod.fst →
       g.connections.any (fun p => decide (p.1.1 = nid)) = false →
       g.connections.any (fun p => decide (p.1.2.1 = nid)) = false →
       dlookup (prune_orphan_nodes g).genes nid = none) ∧
    (∀ out, activate sigmoid tanhF g inputs = Except.ok out →
       out.length = g.output_nodes.length ∧
       ∀ k nid, g.output_nodes.get? k = some nid → dlookup g.genes nid = none →
         out.get? k = some 0) := by
  refine ⟨?_, ?_, ?_⟩
  · unfold prune_orphan_nodes
    exact pruneFold_output_nodes _ _
  · intro nid hmem ha hb
    unfold prune_orphan_nodes
    apply pruneFold_genes_none
    left
    rw [List.mem_filter]
    refine ⟨hmem, ?_⟩
    rw [ha, hb]
    rfl
  · intro out hout
    obtain ⟨nv, hsv, rfl⟩ := activate_ok_form hout
    constructor
    · simp
    · intro k nid hget hnone
      have h0 : dlookup nv nid = none := by
        apply setInputValues_lookup_none inputs nid (inputIndexPairs g) [] nv hsv rfl
        intro hmem2
        obtain ⟨p, hp, hfst⟩ := List.mem_map.mp hmem2
        obtain ⟨p1, p2⟩ := p
        simp only at hfst
        obtain ⟨gi, hgm⟩ := inputIndexPairs_fst_mem_genes (hfst ▸ hp)
        exact dlookup_ne_none_of_mem hgm hnone
      have h1 := activateNodeStep_fold_none sigmoid tanhF g nid hnone
        (insertionSort (fun a b => decide (a ≤ b)) (g.genes.map Prod.fst)) nv h0
      rw [List.get?_map, hget]
      simp [h1]

/-- Witness for C10: pruning `fixtureOrphanGenome` removes the isolated output
gene 1 but keeps `output_nodes = [1]`, and activating the pruned genome (zero
input nodes, empty input list) still returns a length-1 output vector whose
only entry is the 0 default. -/
theorem C10_output_vector_witness :
    (prune_orphan_nodes fixtureOrphanGenome).output_nodes = [1] ∧
    dlookup (prune_orphan_nodes fixtureOrphanGenome).genes 1 = none ∧
    activate (fun x => x) (fun x => x) (prune_orphan_nodes fixtureOrphanGenome) []
      = Except.ok [0] ∧
    (0 : Nat) + 1 = (prune_orphan_nodes fixtureOrphanGenome).output_nodes.length := by
  have h := C10_output_vector_length_stable (fun x => x) (fun x => x)
    fixtureOrphanGenome []
  have h2 := C10_output_vector_length_stable (fun x => x) (fun x => x)
    (prune_orphan_nodes fixtureOrphanGenome) []
  have hok : activate (fun x => x) (fun x => x) (prune_orphan_nodes fixtureOrphanGenome) []
      = Except.ok [0] := by
    have := (activate (fun x => x) (fun x => x)
      (prune_orphan_nodes fixtureOrphanGenome) []).toOption
    cases hact : activate (fun x => x) (fun x => x)
        (prune_orphan_nodes fixtureOrphanGenome) [] with
    | error e =>
      have : (activate (fun x => x) (fun x => x)
          (prune_orphan_nodes fixtureOrphanGenome) []).toOption = none := by
        rw [hact]; rfl
      rw [show (activate (fun x => x) (fun x => x)
        (prune_orphan_nodes fixtureOrphanGenome) []).toOption = some [0] by decide] at this
      exact absurd this (by simp)
    | ok out =>
      have : (activate (fun x => x) (fun x => x)
          (prune_orphan_nodes fixtureOrphanGenome) []).toOption = some out := by
        rw [hact]; rfl
      rw [show (activate (fun x => x) (fun x => x)
        (prune_orphan_nodes fixtureOrphanGenome) []).toOption = some [0] by decide] at this
      rw [← Option.some.inj this]
  refine ⟨?_, ?_, hok, ?_⟩
  · rw [h.1]
    rfl
  · exact h.2.1 1 (by decide) (by decide) (by decide)
  · rw [← (h2.2.2 [0] hok).1]
    rfl

theorem stagFold_preserve (st : StagnationState) (gen : Int) (x : Nat) :
    ∀ (specs : List SpeciesS)
      (acc : List (Nat × Bool) × List (Nat × Int) × List (SpeciesS × Bool)),
      (∀ s ∈ specs, s.sid ≠ x) →
      dlookup ((specs.foldl (stagnationStep st gen) acc).1) x = dlookup acc.1 x ∧
      dlookup ((specs.foldl (stagnationStep st gen) acc).2.1) x = dlookup acc.2.1 x := by
  intro specs
  induction specs with
  | nil => intro acc _; exact ⟨rfl, rfl⟩
  | cons s rest ih =>
    intro acc hne
    simp only [List.foldl_cons]
    have hsne : s.sid ≠ x := hne s (List.mem_cons_self _ _)
    obtain ⟨ih1, ih2⟩ := ih (stagnationStep st gen acc s)
      (fun s2 hs2 => hne s2 (List.mem_cons_of_mem _ hs2))
    rw [ih1, ih2]
    unfold stagnationStep
    dsimp only
    cases hli : dlookup acc.2.1 s.sid with
    | none =>
      dsimp only
      exact ⟨dlookup_dinsert_ne _ _ _ _ (Ne.symm hsne),
        dlookup_dinsert_ne _ _ _ _ (Ne.symm hsne)⟩
    | some last =>
      dsimp only
      by_cases himp : s.best_fitness > s.historical_best_fitness
      · rw [if_pos himp]
        exact ⟨dlookup_dinsert_ne _ _ _ _ (Ne.symm hsne),
          dlookup_dinsert_ne _ _ _ _ (Ne.symm hsne)⟩
      · rw [if_neg himp]
        by_cases hst : gen - last ≥ st.max_stagnation
        · rw [if_pos hst]
          exact ⟨dlookup_dinsert_ne _ _ _ _ (Ne.symm hsne), rfl⟩
        · rw [if_neg hst]
          exact ⟨dlookup_dinsert_ne _ _ _ _ (Ne.symm hsne), rfl⟩

theorem stagFold_status (st : StagnationState) (gen : Int) :
    ∀ (specs : List SpeciesS)
      (acc : List (Nat × Bool) × List (Nat × Int) × List (SpeciesS × Bool))
      (spec : SpeciesS), spec ∈ specs →
      (specs.map SpeciesS.sid).Nodup →
      dlookup acc.2.1 spec.sid = dlookup st.species_last_improved spec.sid →
      dlookup ((specs.foldl (stagnationStep st gen) acc).1) spec.sid
          = some (rawStagFlag st gen spec) ∧
      dlookup ((specs.foldl (stagnationStep st gen) acc).2.1) spec.sid
          = (if (dlookup st.species_last_improved spec.sid).isNone
                ∨ spec.best_fitness > spec.historical_best_fitness
             then some gen else dlookup st.species_last_improved spec.sid) := by
  intro specs
  induction specs with
  | nil => intro acc spec hmem; exact absurd hmem (List.not_mem_nil spec)
  | cons s rest ih =>
    intro acc spec hmem hnd hacc
    simp only [List.foldl_cons]
    rcases List.mem_cons.mp hmem with rfl | hrest
    · have hnotrest : ∀ s2 ∈ rest, s2.sid ≠ spec.sid := by
        intro s2 hs2 he
        have : spec.sid ∈ rest.map SpeciesS.sid := by
          rw [← he]; exact List.mem_map_of_mem _ hs2
        exact (List.nodup_cons.mp hnd).1 this
      obtain ⟨hp1, hp2⟩ := stagFold_preserve st gen spec.sid rest
        (stagnationStep st gen acc spec) hnotrest
      rw [hp1, hp2]
      unfold stagnationStep rawStagFlag
      dsimp only
      rw [hacc]
      cases hli : dlookup st.species_last_improved spec.sid with
      | none =>
        dsimp only
        simp only [Option.isNone_none, true_or, if_true, ite_true]
        exact ⟨dlookup_dinsert_self _ _ _, dlookup_dinsert_self _ _ _⟩
      | some last =>
        dsimp only
        by_cases himp : spec.best_fitness > spec.historical_best_fitness
        · rw [if_pos himp]
          simp only [Option.isNone_some, himp, or_true, if_true, ite_true,
            Bool.false_eq_true, false_or]
          exact ⟨dlookup_dinsert_self _ _ _, dlookup_dinsert_self _ _ _⟩
        · rw [if_neg himp]
          have hcond : ((dlookup st.species_last_improved spec.sid).isNone
              ∨ spec.best_fitness > spec.historical_best_fitness) = False := by
            rw [hli]
            simp [himp]
          by_cases hst : gen - last ≥ st.max_stagnation
          · rw [if_pos hst]
            refine ⟨?_, ?_⟩
            · dsimp only
              rw [dlookup_dinsert_self]
              congr 1
              rw [if_neg himp]
              simp [hst]
            · dsimp only
              simp [himp, hacc, hli]
          · rw [if_neg hst]
            refine ⟨?_, ?_⟩
            · dsimp only
              rw [dlookup_dinsert_self]
              congr 1
              rw [if_neg himp]
              simp [hst]
            · dsimp only
              simp [himp, hacc, hli]
    · have hsne : s.sid ≠ spec.sid := by
        intro he
        have : spec.sid ∈ rest.map SpeciesS.sid := List.mem_map_of_mem _ hrest
        rw [← he] at this
        exact (List.nodup_cons.mp hnd).1 this
      apply ih (stagnationStep st gen acc s) spec hrest (List.nodup_cons.mp hnd).2
      unfold stagnationStep
      dsimp only
      cases hli : dlookup acc.2.1 s.sid with
      | none =>
        dsimp only
        rw [dlookup_dinsert_ne _ _ _ _ (Ne.symm hsne)]
        exact hacc
      | some last =>
        dsimp only
        by_cases himp : s.best_fitness > s.historical_best_fitness
        · rw [if_pos himp]
          rw [dlookup_dinsert_ne _ _ _ _ (Ne.symm hsne)]
          exact hacc
        · rw [if_neg himp]
          by_cases hst : gen - last ≥ st.max_stagnation
          · rw [if_pos hst]; exact hacc
          · rw [if_neg hst]; exact hacc

theorem forcedFold_lookup : ∀ (forced : List Nat) (status : List (Nat × Bool)) (x : Nat),
    dlookup (forced.foldl (fun s sid => dinsert s sid false) status) x
      = if x ∈ forced then some false else dlookup status x := by
  intro forced
  induction forced with
  | nil => intro status x; simp
  | cons f rest ih =>
    intro status x
    simp only [List.foldl_cons]
    rw [ih]
    by_cases h1 : x ∈ rest
    · simp [h1, List.mem_cons]
    · by_cases h2 : x = f
      · simp [h1, h2, dlookup_dinsert_self]
      · simp [h1, h2, List.mem_cons, dlookup_dinsert_ne _ _ _ _ h2]

/-- C8: confirmed.  For any species in the processed list (species ids
distinct, as Python guarantees via object identity): one never seen before is
reported non-stagnant; one whose current best strictly exceeds its tracked
historical best is reported non-stagnant and has its last-improved generation
refreshed to the current generation; otherwise (when not rescued by elitism)
it is flagged stagnant iff `generation - last_improved >= max_stagnation`;
and every species among the top `elitism` ranked by best member raw fitness
(`stagForcedSids`) is forced non-stagnant. -/
theorem C8_stagnation_update_flags (st : StagnationState) (specs : List SpeciesS)
    (generation : Int) (spec : SpeciesS)
    (hmem : spec ∈ specs) (hnd : (specs.map SpeciesS.sid).Nodup) :
    (dlookup st.species_last_improved spec.sid = none →
       dlookup (stagnationUpdate st specs generation).1 spec.sid = some false) ∧
    (∀ last, dlookup st.species_last_improved spec.sid = some last →
       spec.best_fitness > spec.historical_best_fitness →
       dlookup (stagnationUpdate st specs generation).1 spec.sid = some false ∧
       dlookup (stagnationUpdate st specs generation).2.species_last_improved spec.sid
         = some generation) ∧
    (∀ last, dlookup st.species_last_improved spec.sid = some last →
       ¬(spec.best_fitness > spec.historical_best_fitness) →
       spec.sid ∉ stagForcedSids st specs generation →
       (dlookup (stagnationUpdate st specs generation).1 spec.sid = some true
         ↔ generation - last ≥ st.max_stagnation)) ∧
    (spec.sid ∈ stagForcedSids st specs generation →
       dlookup (stagnationUpdate st specs generation).1 spec.sid = some false) := by
  have hfold := stagFold_status st generation specs ([], st.species_last_improved, [])
    spec hmem hnd rfl
  have hfinal : dlookup (stagnationUpdate st specs generation).1 spec.sid
      = if spec.sid ∈ stagForcedSids st specs generation then some false
        else some (rawStagFlag st generation spec) := by
    unfold stagnationUpdate
    dsimp only
    rw [forcedFold_lookup, hfold.1]
  have hli2 : dlookup (stagnationUpdate st specs generation).2.species_last_improved spec.sid
      = (if (dlookup st.species_last_improved spec.sid).isNone
            ∨ spec.best_fitness > spec.historical_best_fitness
         then some generation else dlookup st.species_last_improved spec.sid) := by
    unfold stagnationUpdate
    dsimp only
    exact hfold.2
  refine ⟨?_, ?_, ?_, ?_⟩
  · intro hn
    rw [hfinal]
    have hflag : rawStagFlag st generation spec = false := by
      unfold rawStagFlag
      rw [hn]
    rw [hflag]
    split <;> rfl
  · intro last hlast himp
    constructor
    · rw [hfinal]
      have hflag : rawStagFlag st generation spec = false := by
        unfold rawStagFlag
        rw [hlast]
        dsimp only
        rw [if_pos himp]
      rw [hflag]
      split <;> rfl
    · rw [hli2, hlast]
      simp [himp]
  · intro last hlast himp hnf
    rw [hfinal, if_neg hnf]
    have hflag : rawStagFlag st generation spec
        = decide (generation - last ≥ st.max_stagnation) := by
      unfold rawStagFlag
      rw [hlast]
      dsimp only
      rw [if_neg himp]
    rw [hflag]
    constructor
    · intro h
      exact of_decide_eq_true (Option.some.inj h)
    · intro h
      rw [decide_eq_true h]
  · intro hf
    rw [hfinal, if_pos hf]

/-- Witness for C8 at generation 5 on `stagStateW`: the first-seen species 12
is non-stagnant, species 11 (unimproved for 5 ≥ 3 generations, not in the
elitism set) is stagnant, and species 10 — whose raw flag would also be
stagnant — is forced non-stagnant as the single elitism survivor. -/
theorem C8_stagnation_witness :
    dlookup (stagnationUpdate stagStateW [stagSpecA, stagSpecB, stagSpecC] 5).1 12
      = some false ∧
    dlookup (stagnationUpdate stagStateW [stagSpecA, stagSpecB, stagSpecC] 5).1 11
      = some true ∧
    dlookup (stagnationUpdate stagStateW [stagSpecA, stagSpecB, stagSpecC] 5).1 10
      = some false := by
  have hC := C8_stagnation_update_flags stagStateW [stagSpecA, stagSpecB, stagSpecC] 5
    stagSpecC (by decide) (by decide)
  have hB := C8_stagnation_update_flags stagStateW [stagSpecA, stagSpecB, stagSpecC] 5
    stagSpecB (by decide) (by decide)
  have hA := C8_stagnation_update_flags stagStateW [stagSpecA, stagSpecB, stagSpecC] 5
    stagSpecA (by decide) (by decide)
  refine ⟨hC.1 (by decide), ?_, hA.2.2.2 (by decide)⟩
  exact (hB.2.2.1 0 (by decide) (by decide) (by decide)).mpr (by decide)
